import Mathlib

/-!
# Shallow embedding of the sanoRTOS kernel core (src/source revision)

This file embeds the data model and the operations of the sanoRTOS kernel
(task queues, task lifecycle, scheduler, mutex, semaphore, condition
variable, message queue, software timers) as Lean definitions translated
from the C sources under `src/source` and `src/include/sanoRTOS`, and
proves properties of those definitions.

Modelling conventions:
* task handles (`taskHandleType *`) become task identifiers `TaskId := Nat`;
  the fields of the TCB that the kernel core reads and writes are collected
  in `TaskInfo`, and the pool of TCBs is a function `TaskId → TaskInfo`;
* linked task queues (`taskQueueType`) become `List TaskId` in list order
  (head of the list = head of the queue);
* C `NULL` results become `Option`;
* a C path that dereferences a possibly-NULL pointer (undefined behaviour)
  is modelled by propagating `Option.none` from the function;
* machine integers that are only compared (`uint8_t priority`,
  `uint32_t` tick counts) become `Nat`; the core affinity enum (with
  `AFFINITY_CORE_ANY = -1`) becomes `Int`;
* blocking calls, whose behaviour depends on the actions of other tasks
  while the caller is blocked, become big-step relations in which the
  interference of the environment between block and wakeup is an explicit
  premise.
-/

namespace SanoRTOS

/-- Task identifier: stands for a `taskHandleType *` (never NULL). -/
abbrev TaskId := Nat

/-- `taskStatusType` from `src/include/sanoRTOS/task.h`. -/
inductive TaskStatus where
  | ready
  | running
  | blocked
  | suspended
deriving DecidableEq, Repr

/-- `blockedReasonType` from `src/include/sanoRTOS/task.h`. -/
inductive BlockedReason where
  | noReason
  | sleep
  | waitForSemaphore
  | waitForMutex
  | waitForMsgQueueData
  | waitForMsgQueueSpace
  | waitForCondVar
  | waitForTimerTimeout
deriving DecidableEq, Repr

/-- `wakeupReasonType` from `src/include/sanoRTOS/task.h`. -/
inductive WakeupReason where
  | noReason
  | waitTimeout
  | sleepTimeTimeout
  | semaphoreTaken
  | mutexLocked
  | msgQueueDataAvailable
  | msgQueueSpaceAvailable
  | condVarSignalled
  | timerTimeout
  | resume
deriving DecidableEq, Repr

/-- `AFFINITY_CORE_ANY` from `src/include/sanoRTOS/task.h` (value `-1`). -/
def AFFINITY_CORE_ANY : Int := -1

/-- The fields of `taskHandleType` (the TCB) that the kernel core reads and
writes; stack bookkeeping and the entry function are not modelled. -/
structure TaskInfo where
  priority : Nat
  coreAffinity : Int
  status : TaskStatus
  blockedReason : BlockedReason
  wakeupReason : WakeupReason
  remainingSleepTicks : Nat
deriving DecidableEq, Repr

/-- `TASK_NO_WAIT` from `src/include/sanoRTOS/task.h`. -/
def TASK_NO_WAIT : Nat := 0

/-- `TASK_MAX_WAIT` (`0xffffffffUL`) from `src/include/sanoRTOS/task.h`. -/
def TASK_MAX_WAIT : Nat := 0xffffffff

/-- Return codes from `src/include/sanoRTOS/retCodes.h`. -/
def RET_SUCCESS : Int := 0

def RET_TIMEOUT : Int := -2

def RET_EMPTY : Int := -3

def RET_FULL : Int := -4

def RET_NOTASK : Int := -5

def RET_BUSY : Int := -6

def RET_NOTOWNER : Int := -7

def RET_NOTACTIVE : Int := -8

def RET_ALREADYACTIVE : Int := -9

def RET_NOTSUSPENDED : Int := -10

def RET_NOSEM : Int := -11

def RET_NOTLOCKED : Int := -12

/-- The affinity test performed by `taskQueueGet`/`taskQueuePeek` in
`src/source/taskQueue.c`:
`coreAffinity == PORT_CORE_ID() || coreAffinity == AFFINITY_CORE_ANY`. -/
def eligibleForCore (env : TaskId → TaskInfo) (core : Nat) (t : TaskId) : Bool :=
  (env t).coreAffinity = (core : Int) ∨ (env t).coreAffinity = AFFINITY_CORE_ANY

/-! ## Task queue (`src/source/taskQueue.c`) -/

/-- The walk in the `else` branch of `taskQueueAdd`: starting from the node
after the head, advance while the next node's priority is `≤` the inserted
task's priority, and insert before the first node whose priority is
strictly greater (lines 141-149 of `src/source/taskQueue.c`). -/
def taskQueueAddLoop (prio : TaskId → Nat) (t : TaskId) : List TaskId → List TaskId
  | [] => [t]
  | n :: rest =>
      if prio n ≤ prio t then n :: taskQueueAddLoop prio t rest
      else t :: n :: rest

/-- `taskQueueAdd` (lines 123-151 of `src/source/taskQueue.c`): insert a task
into the queue in ascending order of priority value.  An empty queue gets the
task as its only node; if the head's priority is strictly greater than the
task's, the task becomes the new head; otherwise the task is inserted after
the last node whose priority is `≤` the task's priority. -/
def taskQueueAdd (prio : TaskId → Nat) (q : List TaskId) (t : TaskId) : List TaskId :=
  match q with
  | [] => [t]
  | h :: rest =>
      if prio t < prio h then t :: h :: rest
      else h :: taskQueueAddLoop prio t rest

/-- `taskQueueRemove` (lines 73-94 of `src/source/taskQueue.c`): unlink the
first node holding the given task.  The C code assumes the task is present
(otherwise it walks off the end of the list); on a queue not containing the
task the model leaves the queue unchanged. -/
def taskQueueRemove : List TaskId → TaskId → List TaskId
  | [], _ => []
  | h :: rest, t => if h = t then rest else h :: taskQueueRemove rest t

/-- `taskQueueGet` (lines 161-184 of `src/source/taskQueue.c`): scan from the
head for the first task whose core affinity admits the calling core, remove
it from the queue and return it; `none` if no eligible task exists. -/
def taskQueueGet (env : TaskId → TaskInfo) (core : Nat) :
    List TaskId → Option TaskId × List TaskId
  | [] => (none, [])
  | h :: rest =>
      if eligibleForCore env core h then (some h, rest)
      else
        let r := taskQueueGet env core rest
        (r.1, h :: r.2)

/-- `taskQueuePeek` (lines 194-211 of `src/source/taskQueue.c`): like
`taskQueueGet` but without removing the found task. -/
def taskQueuePeek (env : TaskId → TaskInfo) (core : Nat) : List TaskId → Option TaskId
  | [] => none
  | h :: rest =>
      if eligibleForCore env core h then some h
      else taskQueuePeek env core rest

/-! ### Properties of `taskQueueAdd` (claim C3 machinery) -/

/-- The ready-queue ordering predicate: every two adjacent nodes `a, b`
satisfy `a.priority ≤ b.priority`. -/
def QueueSorted (prio : TaskId → Nat) (q : List TaskId) : Prop :=
  List.Chain' (fun a b => prio a ≤ prio b) q

instance (prio : TaskId → Nat) : IsTrans TaskId (fun a b => prio a ≤ prio b) :=
  ⟨fun _ _ _ h1 h2 => le_trans h1 h2⟩

theorem taskQueueAddLoop_eq (prio : TaskId → Nat) (t : TaskId) (q : List TaskId) :
    taskQueueAddLoop prio t q =
      q.takeWhile (fun n => prio n ≤ prio t) ++ t :: q.dropWhile (fun n => prio n ≤ prio t) := by
  induction q with
  | nil => simp [taskQueueAddLoop]
  | cons h rest ih =>
      by_cases hle : prio h ≤ prio t
      · simp [taskQueueAddLoop, hle, List.takeWhile_cons, List.dropWhile_cons, ih]
      · simp [taskQueueAddLoop, hle, List.takeWhile_cons, List.dropWhile_cons]

/-- Positional characterization of `taskQueueAdd`: the new task lands right
after the longest prefix of nodes whose priority is `≤` its own. -/
theorem taskQueueAdd_eq_takeWhile (prio : TaskId → Nat) (q : List TaskId) (t : TaskId) :
    taskQueueAdd prio q t =
      q.takeWhile (fun n => prio n ≤ prio t) ++ t :: q.dropWhile (fun n => prio n ≤ prio t) := by
  cases q with
  | nil => simp [taskQueueAdd]
  | cons h rest =>
      by_cases hlt : prio t < prio h
      · have hnle : ¬ prio h ≤ prio t := not_le.mpr hlt
        simp [taskQueueAdd, hlt, List.takeWhile_cons, List.dropWhile_cons, hnle]
      · have hle : prio h ≤ prio t := le_of_not_lt hlt
        simp [taskQueueAdd, hlt, List.takeWhile_cons, List.dropWhile_cons, hle,
          taskQueueAddLoop_eq]

/-- On a sorted queue the nodes with priority `≤ p` form exactly the longest
prefix of such nodes. -/
theorem takeWhile_eq_filter_of_sorted (prio : TaskId → Nat) (p : Nat) (q : List TaskId)
    (hs : QueueSorted prio q) :
    q.takeWhile (fun n => prio n ≤ p) = q.filter (fun n => prio n ≤ p) ∧
      q.dropWhile (fun n => prio n ≤ p) = q.filter (fun n => p < prio n) := by
  induction q with
  | nil => simp
  | cons h rest ih =>
      have hp := List.chain'_iff_pairwise.mp hs
      have hhd : ∀ a ∈ rest, prio h ≤ prio a := (List.pairwise_cons.mp hp).1
      have hs' : QueueSorted prio rest := by
        rw [QueueSorted, List.chain'_iff_pairwise]
        exact (List.pairwise_cons.mp hp).2
      by_cases hle : prio h ≤ p
      · have := ih hs'
        constructor
        · simp [List.takeWhile_cons, List.filter_cons, hle, this.1, not_lt.mpr hle]
        · simp [List.dropWhile_cons, List.filter_cons, hle, this.2, not_lt.mpr hle]
      · have hgt : p < prio h := not_le.mp hle
        have habove : ∀ a ∈ rest, p < prio a := fun a ha =>
          lt_of_lt_of_le hgt (hhd a ha)
        constructor
        · have hrestf : rest.filter (fun n => decide (prio n ≤ p)) = [] := by
            rw [List.filter_eq_nil_iff]
            intro a ha
            simpa using not_le.mpr (habove a ha)
          simp [List.takeWhile_cons, List.filter_cons, hle, hrestf]
        · have hrestf : rest.filter (fun n => decide (p < prio n)) = rest := by
            rw [List.filter_eq_self]
            intro a ha
            simpa using habove a ha
          simp [List.dropWhile_cons, List.filter_cons, hle, hgt, hrestf]

/-- `taskQueueAdd` preserves the ascending-priority ordering of the queue. -/
theorem taskQueueAdd_sorted (prio : TaskId → Nat) (q : List TaskId) (t : TaskId)
    (hs : QueueSorted prio q) : QueueSorted prio (taskQueueAdd prio q t) := by
  rw [taskQueueAdd_eq_takeWhile]
  have hpair := List.chain'_iff_pairwise.mp hs
  rw [QueueSorted, List.chain'_iff_pairwise]
  have htake : List.Pairwise (fun a b => prio a ≤ prio b)
      (q.takeWhile (fun n => prio n ≤ prio t)) :=
    hpair.sublist (List.takeWhile_sublist _)
  have hdrop : List.Pairwise (fun a b => prio a ≤ prio b)
      (q.dropWhile (fun n => prio n ≤ prio t)) :=
    hpair.sublist (List.dropWhile_sublist _)
  have hdrop_lower : ∀ a ∈ q.dropWhile (fun n => prio n ≤ prio t), prio t ≤ prio a := by
    intro a ha
    rw [(takeWhile_eq_filter_of_sorted prio (prio t) q hs).2] at ha
    have := List.of_mem_filter ha
    simp only [decide_eq_true_eq] at this
    exact le_of_lt this
  have htake_upper : ∀ a ∈ q.takeWhile (fun n => prio n ≤ prio t), prio a ≤ prio t := by
    intro a ha
    have := List.mem_takeWhile_imp ha
    simpa using this
  refine List.pairwise_append.mpr ⟨htake, List.pairwise_cons.mpr ⟨hdrop_lower, hdrop⟩, ?_⟩
  intro a ha b hb
  rcases List.mem_cons.mp hb with rfl | hb'
  · exact htake_upper a ha
  · exact le_trans (htake_upper a ha) (hdrop_lower b hb')

/-- Any queue built from the empty queue by a sequence of `taskQueueAdd`
operations is sorted. -/
theorem taskQueueAdd_foldl_sorted (prio : TaskId → Nat) (ts : List TaskId) :
    QueueSorted prio (ts.foldl (taskQueueAdd prio) []) := by
  have hgen : ∀ (q : List TaskId), QueueSorted prio q →
      QueueSorted prio (ts.foldl (taskQueueAdd prio) q) := by
    induction ts with
    | nil => intro q hq; simpa using hq
    | cons t rest ih =>
        intro q hq
        exact ih _ (taskQueueAdd_sorted prio q t hq)
  exact hgen [] (by simp [QueueSorted])

/-- In a sorted queue, inserting `t` places it after every node whose
priority is `≤` the inserted task's (in particular after all equal-priority
nodes, preserving their FIFO order, which `List.filter` keeps intact). -/
theorem taskQueueAdd_eq_filter_of_sorted (prio : TaskId → Nat) (q : List TaskId) (t : TaskId)
    (hs : QueueSorted prio q) :
    taskQueueAdd prio q t =
      q.filter (fun n => prio n ≤ prio t) ++ t :: q.filter (fun n => prio t < prio n) := by
  rw [taskQueueAdd_eq_takeWhile,
    (takeWhile_eq_filter_of_sorted prio (prio t) q hs).1,
    (takeWhile_eq_filter_of_sorted prio (prio t) q hs).2]

/-- C3. `taskQueueAdd` keeps the queue sorted in ascending priority order:
(1) it inserts at the front exactly the new task when its priority is
strictly less than the head's; (2) otherwise the head is unchanged and the
task lands right after the longest prefix of nodes with priority `≤` its
own (i.e. after the last node whose priority is less than or equal to the
inserted task's); (3) on a sorted queue this places the new task after
every node of priority `≤` its own, keeping equal-priority tasks in
insertion (FIFO) order; (4) insertion preserves sortedness, and any queue
built by a sequence of `taskQueueAdd` operations from the empty queue has
every two adjacent nodes `a, b` satisfying `a.priority ≤ b.priority`. -/
theorem C3_taskQueueAdd_sorted_fifo :
    (∀ (prio : TaskId → Nat) (h : TaskId) (rest : List TaskId) (t : TaskId),
      prio t < prio h → taskQueueAdd prio (h :: rest) t = t :: h :: rest) ∧
    (∀ (prio : TaskId → Nat) (h : TaskId) (rest : List TaskId) (t : TaskId),
      ¬ prio t < prio h →
        taskQueueAdd prio (h :: rest) t =
          h :: (rest.takeWhile (fun n => prio n ≤ prio t) ++
            t :: rest.dropWhile (fun n => prio n ≤ prio t))) ∧
    (∀ (prio : TaskId → Nat) (q : List TaskId) (t : TaskId), QueueSorted prio q →
      taskQueueAdd prio q t =
        q.filter (fun n => prio n ≤ prio t) ++ t :: q.filter (fun n => prio t < prio n)) ∧
    (∀ (prio : TaskId → Nat) (q : List TaskId) (t : TaskId), QueueSorted prio q →
      QueueSorted prio (taskQueueAdd prio q t)) ∧
    (∀ (prio : TaskId → Nat) (ts : List TaskId),
      QueueSorted prio (ts.foldl (taskQueueAdd prio) [])) := by
  refine ⟨?_, ?_, taskQueueAdd_eq_filter_of_sorted, taskQueueAdd_sorted,
    taskQueueAdd_foldl_sorted⟩
  · intro prio h rest t hlt
    simp [taskQueueAdd, hlt]
  · intro prio h rest t hlt
    have hle : prio h ≤ prio t := le_of_not_lt hlt
    simp [taskQueueAdd, hlt, taskQueueAddLoop_eq]

/-- Witness for C3 at concrete inputs. -/
theorem C3_witness :
    ((0 : Nat) < 1 ∧
      taskQueueAdd (fun i => i) [1, 2] 0 = [0, 1, 2]) ∧
    (QueueSorted (fun i => i) [1, 2] ∧
      QueueSorted (fun i => i) (taskQueueAdd (fun i => i) [1, 2] 1)) := by
  have hsort : QueueSorted (fun i => i) [1, 2] := by
    simp [QueueSorted, List.chain'_cons, List.chain'_singleton]
  have h1 := C3_taskQueueAdd_sorted_fifo.1 (fun i => i) 1 [2] 0 (by decide)
  have h2 := C3_taskQueueAdd_sorted_fifo.2.2.2.1 (fun i => i) [1, 2] 1 hsort
  exact ⟨⟨by decide, h1⟩, ⟨hsort, h2⟩⟩

/-! ### Further task queue lemmas (get/peek) -/

/-- `taskQueueGet` finds the same task that `taskQueuePeek` finds. -/
theorem taskQueueGet_fst_eq_peek (env : TaskId → TaskInfo) (core : Nat) (q : List TaskId) :
    (taskQueueGet env core q).1 = taskQueuePeek env core q := by
  induction q with
  | nil => rfl
  | cons h rest ih =>
      by_cases he : eligibleForCore env core h
      · simp [taskQueueGet, taskQueuePeek, he]
      · simp [taskQueueGet, taskQueuePeek, he, ih]

/-- If the queue contains a task eligible for the calling core, `taskQueuePeek`
finds one. -/
theorem taskQueuePeek_isSome_of_mem (env : TaskId → TaskInfo) (core : Nat) (q : List TaskId)
    (u : TaskId) (hu : u ∈ q) (he : eligibleForCore env core u) :
    ∃ v, taskQueuePeek env core q = some v := by
  induction q with
  | nil => cases hu
  | cons h rest ih =>
      by_cases hh : eligibleForCore env core h
      · exact ⟨h, by simp [taskQueuePeek, hh]⟩
      · rcases List.mem_cons.mp hu with rfl | hu'
        · exact absurd he hh
        · rcases ih hu' with ⟨v, hv⟩
          exact ⟨v, by simp [taskQueuePeek, hh, hv]⟩

/-- On a sorted queue, the task returned by `taskQueueGet` has minimal priority
value among all tasks in the queue that are eligible for the calling core
(i.e. it is the highest-priority eligible task). -/
theorem taskQueueGet_min_of_sorted (env : TaskId → TaskInfo) (core : Nat) (q : List TaskId)
    (g : TaskId)
    (hs : QueueSorted (fun u => (env u).priority) q)
    (hg : (taskQueueGet env core q).1 = some g) :
    ∀ u ∈ q, eligibleForCore env core u → (env g).priority ≤ (env u).priority := by
  induction q with
  | nil => simp [taskQueueGet] at hg
  | cons h rest ih =>
      have hp := List.chain'_iff_pairwise.mp hs
      have hhd : ∀ a ∈ rest, (env h).priority ≤ (env a).priority :=
        (List.pairwise_cons.mp hp).1
      have hs' : QueueSorted (fun u => (env u).priority) rest := by
        rw [QueueSorted, List.chain'_iff_pairwise]
        exact (List.pairwise_cons.mp hp).2
      by_cases hh : eligibleForCore env core h
      · simp only [taskQueueGet, hh, if_pos] at hg
        have hgh : g = h := by
          simp at hg
          exact hg.symm
        subst hgh
        intro u hu _
        rcases List.mem_cons.mp hu with rfl | hu'
        · exact le_refl _
        · exact hhd u hu'
      · simp only [taskQueueGet, hh, if_neg, not_false_iff] at hg
        intro u hu hue
        rcases List.mem_cons.mp hu with rfl | hu'
        · exact absurd hue hh
        · exact ih hs' hg u hu' hue

/-! ## Task pool and task lifecycle (`src/source/task.c`) -/

/-- The global scheduler state shared by the task layer and the scheduler:
the pool of TCBs, the ready and blocked queues (`taskPool.readyQueue`,
`taskPool.blockedQueue`), the per-core current task
(`taskPool.currentTask[coreId]` for the modelled core) and the two globals
`currentTask[coreId]` / `nextTask[coreId]` written by `selectNextTask` for
the port's context-switch code. -/
structure TaskPool where
  tasks : TaskId → TaskInfo
  readyQueue : List TaskId
  blockedQueue : List TaskId
  current : TaskId
  currentSlot : TaskId
  nextSlot : TaskId

/-- `taskQueueAddToFront` (lines 104-112 of `src/source/taskQueue.c`). -/
def taskQueueAddToFront (q : List TaskId) (t : TaskId) : List TaskId := t :: q

/-- `taskSetReady` (lines 63-87 of `src/source/task.c`): if the task is
blocked, remove it from the blocked queue; set
`status=READY, blockedReason=NONE, wakeupReason=reason,
remainingSleepTicks=0`; add the task to the ready queue. -/
def taskSetReady (p : TaskPool) (t : TaskId) (reason : WakeupReason) : TaskPool :=
  let p1 :=
    if (p.tasks t).status = TaskStatus.blocked then
      { p with blockedQueue := taskQueueRemove p.blockedQueue t }
    else p
  let ti := p1.tasks t
  let tasks2 := Function.update p1.tasks t
    { ti with
      status := TaskStatus.ready
      blockedReason := BlockedReason.noReason
      wakeupReason := reason
      remainingSleepTicks := 0 }
  { p1 with
    tasks := tasks2
    readyQueue := taskQueueAdd (fun u => (tasks2 u).priority) p1.readyQueue t }

/-- The state mutation of `taskBlock` (lines 96-116 of `src/source/task.c`)
before its final `taskYield`: record the wait ticks and the blocking reason,
mark the task blocked and push it on the front of the blocked queue. -/
def taskBlock (p : TaskPool) (t : TaskId) (reason : BlockedReason) (ticks : Nat) : TaskPool :=
  let ti := p.tasks t
  { p with
    tasks := Function.update p.tasks t
      { ti with
        remainingSleepTicks := ticks
        status := TaskStatus.blocked
        blockedReason := reason
        wakeupReason := WakeupReason.noReason }
    blockedQueue := taskQueueAddToFront p.blockedQueue t }

/-! ## Scheduler (`src/source/scheduler.c`) -/

/-- The tail of `selectNextTask` (lines 93-110 of `src/source/scheduler.c`):
record the old current task in the global `currentTask` slot, pop the next
eligible task from the ready queue (the C code dereferences the result
without a NULL check, so an ineligible-only queue is undefined behaviour,
modelled as `none`), mark it RUNNING, record it in the global `nextTask`
slot and make it the current task. -/
def selectNextTaskFinish (core : Nat) (p : TaskPool) : Option (TaskPool × Bool) :=
  let p1 := { p with currentSlot := p.current }
  match taskQueueGet p1.tasks core p1.readyQueue with
  | (none, _) => none
  | (some g, q2) =>
      let tasks2 := Function.update p1.tasks g { p1.tasks g with status := TaskStatus.running }
      some ({ p1 with tasks := tasks2, readyQueue := q2, nextSlot := g, current := g }, true)

/-- The demotion of a Running current task (lines 84-85 of
`src/source/scheduler.c`): set its status to READY and re-insert it into the
ready queue with `taskQueueAdd` (which places it after all tasks of equal
priority). -/
def demoteCurrent (p : TaskPool) : TaskPool :=
  let tasks1 := Function.update p.tasks p.current
    { p.tasks p.current with status := TaskStatus.ready }
  { p with
    tasks := tasks1
    readyQueue := taskQueueAdd (fun u => (tasks1 u).priority) p.readyQueue p.current }

/-- `selectNextTask` (lines 67-114 of `src/source/scheduler.c`).  Returns the
updated scheduler state and whether a context switch is required; `none`
models the NULL dereference that occurs when the ready queue is non-empty
but holds no task eligible for the calling core. -/
def selectNextTask (core : Nat) (p : TaskPool) : Option (TaskPool × Bool) :=
  if p.readyQueue.isEmpty then some (p, false)
  else
    if (p.tasks p.current).status = TaskStatus.running then
      match taskQueuePeek p.tasks core p.readyQueue with
      | none => none
      | some nxt =>
          if (p.tasks nxt).priority ≤ (p.tasks p.current).priority then
            selectNextTaskFinish core (demoteCurrent p)
          else some (p, false)
    else selectNextTaskFinish core p

/-- The state effect of `taskYield` (lines 167-189 of
`src/source/scheduler.c`): run `selectNextTask`; the context-switch trap
itself only transfers control, the scheduling state change is in
`selectNextTask`. -/
def taskYield (core : Nat) (p : TaskPool) : Option TaskPool :=
  match selectNextTask core p with
  | none => none
  | some (p1, _) => some p1

/-- The TCB field writes of `taskSuspend` (lines 142-145 of
`src/source/task.c`): clear `remainingSleepTicks` and both reasons and mark
the task SUSPENDED. -/
def suspendFields (ti : TaskInfo) : TaskInfo :=
  { ti with
    remainingSleepTicks := 0
    status := TaskStatus.suspended
    blockedReason := BlockedReason.noReason
    wakeupReason := WakeupReason.noReason }

/-- The queue-removal phase of `taskSuspend` (lines 129-140 of
`src/source/task.c`): remove the task from the ready queue if READY, from
the blocked queue if BLOCKED, from nothing otherwise. -/
def taskSuspendDequeue (p : TaskPool) (t : TaskId) : TaskPool :=
  if (p.tasks t).status = TaskStatus.ready then
    { p with readyQueue := taskQueueRemove p.readyQueue t }
  else if (p.tasks t).status = TaskStatus.blocked then
    { p with blockedQueue := taskQueueRemove p.blockedQueue t }
  else p

/-- The state mutation of `taskSuspend` (lines 129-145 of
`src/source/task.c`): queue removal followed by the TCB field writes. -/
def taskSuspendApply (p : TaskPool) (t : TaskId) : TaskPool :=
  let p1 := taskSuspendDequeue p t
  { p1 with tasks := Function.update p1.tasks t (suspendFields (p1.tasks t)) }

/-- `taskSuspend` (lines 123-154 of `src/source/task.c`): apply the state
mutation, then yield if the suspended task is the current task. -/
def taskSuspend (core : Nat) (p : TaskPool) (t : TaskId) : Option TaskPool :=
  let p2 := taskSuspendApply p t
  if t = p2.current then taskYield core p2 else some p2

/-- `taskResume` (lines 163-174 of `src/source/task.c`). -/
def taskResume (p : TaskPool) (t : TaskId) : TaskPool × Int :=
  if (p.tasks t).status = TaskStatus.suspended then
    (taskSetReady p t WakeupReason.resume, RET_SUCCESS)
  else (p, RET_NOTSUSPENDED)

/-- The body of the `checkTimeout` loop for one blocked-queue node
(lines 137-155 of `src/source/scheduler.c`): if the task still has sleep
ticks left, decrement them; on reaching zero set it READY with
`SLEEP_TIME_TIMEOUT` when it was sleeping and `WAIT_TIMEOUT` otherwise. -/
def checkTimeoutNode (p : TaskPool) (t : TaskId) : TaskPool :=
  let ti := p.tasks t
  if 0 < ti.remainingSleepTicks then
    let ti1 := { ti with remainingSleepTicks := ti.remainingSleepTicks - 1 }
    let p1 := { p with tasks := Function.update p.tasks t ti1 }
    if ti1.remainingSleepTicks = 0 then
      if ti1.blockedReason = BlockedReason.sleep then
        taskSetReady p1 t WakeupReason.sleepTimeTimeout
      else
        taskSetReady p1 t WakeupReason.waitTimeout
    else p1
  else p

/-- The blocked-queue walk of `checkTimeout`, over the snapshot of the
queue taken when the sweep starts (the C loop saves each node's `next`
pointer before the node's task can be moved to the ready queue). -/
def checkTimeoutWalk (p : TaskPool) : List TaskId → TaskPool
  | [] => p
  | t :: rest => checkTimeoutWalk (checkTimeoutNode p t) rest

/-- `checkTimeout` (lines 124-158 of `src/source/scheduler.c`): one tick of
the blocked-queue timeout sweep run by the core-0 tick handler. -/
def checkTimeout (p : TaskPool) : TaskPool :=
  checkTimeoutWalk p p.blockedQueue

/-! ### Claim C2: next-task selection -/

/-- Unfolding of `selectNextTaskFinish` when an eligible ready task exists. -/
theorem selectNextTaskFinish_some (core : Nat) (p : TaskPool) (g : TaskId) (q2 : List TaskId)
    (hget : taskQueueGet p.tasks core p.readyQueue = (some g, q2)) :
    selectNextTaskFinish core p =
      some ({ p with
        tasks := Function.update p.tasks g { p.tasks g with status := TaskStatus.running }
        readyQueue := q2
        current := g
        currentSlot := p.current
        nextSlot := g }, true) := by
  simp only [selectNextTaskFinish, hget]

/-- C2. `selectNextTask` behaviour: (1) an empty ready queue means no
switch; (2) if the current task is RUNNING and the peeked
highest-priority eligible ready task has a strictly greater priority
value, no switch happens and the state is untouched; (3) if the current
task is RUNNING and the peeked task's priority value is `≤` the current
task's, the current task is demoted to READY and re-inserted with
`taskQueueAdd` (after all tasks of equal priority, preserving round-robin
among equals), and then the first eligible task `g` of the re-sorted queue
is removed, marked RUNNING and installed as the current/next task with a
switch; (4) if the current task is not RUNNING, the first eligible ready
task is removed, marked RUNNING and installed, with a switch; (5) the task
removed by `taskQueueGet` is the highest-priority eligible task whenever
the queue is sorted. -/
theorem C2_selectNextTask_cases :
    (∀ (core : Nat) (p : TaskPool), p.readyQueue = [] →
      selectNextTask core p = some (p, false)) ∧
    (∀ (core : Nat) (p : TaskPool) (nxt : TaskId), p.readyQueue ≠ [] →
      (p.tasks p.current).status = TaskStatus.running →
      taskQueuePeek p.tasks core p.readyQueue = some nxt →
      (p.tasks p.current).priority < (p.tasks nxt).priority →
      selectNextTask core p = some (p, false)) ∧
    (∀ (core : Nat) (p : TaskPool) (nxt g : TaskId) (q2 : List TaskId),
      p.readyQueue ≠ [] →
      (p.tasks p.current).status = TaskStatus.running →
      taskQueuePeek p.tasks core p.readyQueue = some nxt →
      (p.tasks nxt).priority ≤ (p.tasks p.current).priority →
      taskQueueGet (demoteCurrent p).tasks core (demoteCurrent p).readyQueue = (some g, q2) →
      ∃ p2, selectNextTask core p = some (p2, true) ∧
        p2.current = g ∧ p2.nextSlot = g ∧ p2.currentSlot = p.current ∧
        (p2.tasks g).status = TaskStatus.running ∧
        p2.readyQueue = q2 ∧ p2.blockedQueue = p.blockedQueue ∧
        (g ≠ p.current → (p2.tasks p.current).status = TaskStatus.ready) ∧
        (demoteCurrent p).readyQueue =
          taskQueueAdd (fun u => ((demoteCurrent p).tasks u).priority)
            p.readyQueue p.current) ∧
    (∀ (core : Nat) (p : TaskPool) (g : TaskId) (q2 : List TaskId),
      p.readyQueue ≠ [] →
      (p.tasks p.current).status ≠ TaskStatus.running →
      taskQueueGet p.tasks core p.readyQueue = (some g, q2) →
      ∃ p2, selectNextTask core p = some (p2, true) ∧
        p2.current = g ∧ p2.nextSlot = g ∧ p2.currentSlot = p.current ∧
        (p2.tasks g).status = TaskStatus.running ∧
        p2.readyQueue = q2 ∧ p2.blockedQueue = p.blockedQueue) ∧
    (∀ (env : TaskId → TaskInfo) (core : Nat) (q : List TaskId) (g : TaskId),
      QueueSorted (fun u => (env u).priority) q →
      (taskQueueGet env core q).1 = some g →
      ∀ u ∈ q, eligibleForCore env core u → (env g).priority ≤ (env u).priority) := by
  refine ⟨?_, ?_, ?_, ?_, taskQueueGet_min_of_sorted⟩
  · intro core p hq
    simp [selectNextTask, hq]
  · intro core p nxt hq hrun hpeek hlt
    have hne : p.readyQueue.isEmpty = false := by
      simpa [List.isEmpty_iff] using hq
    simp [selectNextTask, hne, hrun, hpeek, not_le.mpr hlt]
  · intro core p nxt g q2 hq hrun hpeek hle hget
    have hne : p.readyQueue.isEmpty = false := by
      simpa [List.isEmpty_iff] using hq
    have hsel : selectNextTask core p = selectNextTaskFinish core (demoteCurrent p) := by
      simp [selectNextTask, hne, hrun, hpeek, hle]
    have hfin := selectNextTaskFinish_some core (demoteCurrent p) g q2 hget
    refine ⟨_, hsel.trans hfin, rfl, rfl, rfl, by simp [Function.update_same], rfl, rfl,
      ?_, rfl⟩
    intro hgc
    simp only [Function.update_noteq (Ne.symm hgc), demoteCurrent, Function.update_same]
  · intro core p g q2 hq hrun hget
    have hne : p.readyQueue.isEmpty = false := by
      simpa [List.isEmpty_iff] using hq
    have hsel : selectNextTask core p = selectNextTaskFinish core p := by
      simp [selectNextTask, hne, hrun]
    have hfin := selectNextTaskFinish_some core p g q2 hget
    exact ⟨_, hsel.trans hfin, rfl, rfl, rfl, by simp [Function.update_same], rfl, rfl⟩

/-- A concrete two-task pool used as the C2 witness input: task 0 is the
RUNNING current task with priority 5, task 1 is READY with priority 7 and
sits in the ready queue. -/
def w2Tasks : TaskId → TaskInfo := fun i =>
  if i = 0 then
    ⟨5, -1, TaskStatus.running, BlockedReason.noReason, WakeupReason.noReason, 0⟩
  else
    ⟨7, -1, TaskStatus.ready, BlockedReason.noReason, WakeupReason.noReason, 0⟩

def w2Pool : TaskPool :=
  { tasks := w2Tasks
    readyQueue := [1]
    blockedQueue := []
    current := 0
    currentSlot := 0
    nextSlot := 0 }

/-- Witness for C2: a RUNNING current task of priority 5 is not preempted by
a ready task of priority 7. -/
theorem C2_witness :
    w2Pool.readyQueue ≠ [] ∧
    (w2Pool.tasks w2Pool.current).status = TaskStatus.running ∧
    taskQueuePeek w2Pool.tasks 0 w2Pool.readyQueue = some 1 ∧
    (w2Pool.tasks w2Pool.current).priority < (w2Pool.tasks 1).priority ∧
    selectNextTask 0 w2Pool = some (w2Pool, false) :=
  ⟨by decide, by decide, by decide, by decide,
    C2_selectNextTask_cases.2.1 0 w2Pool 1 (by decide) (by decide) (by decide) (by decide)⟩

/-! ### Claim C6: behaviour of the timeout sweep on `TASK_MAX_WAIT` waiters -/

/-- The decrement-only effect of a sweep step (derived form used to state
the sweep lemmas): the task keeps all its fields except that one sleep tick
is consumed. -/
def tickDec (p : TaskPool) (t : TaskId) : TaskPool :=
  let ti := p.tasks t
  { p with
    tasks := Function.update p.tasks t
      { ti with remainingSleepTicks := ti.remainingSleepTicks - 1 } }

/-- A sweep step on a single-waiter blocked queue is `checkTimeoutNode`. -/
theorem checkTimeout_single (p : TaskPool) (t : TaskId) (hq : p.blockedQueue = [t]) :
    checkTimeout p = checkTimeoutNode p t := by
  simp [checkTimeout, hq, checkTimeoutWalk]

/-- With at least two sleep ticks left, a sweep step only decrements the
counter. -/
theorem checkTimeoutNode_dec (p : TaskPool) (t : TaskId)
    (h2 : 2 ≤ (p.tasks t).remainingSleepTicks) :
    checkTimeoutNode p t = tickDec p t := by
  have h0 : 0 < (p.tasks t).remainingSleepTicks := by omega
  have h1 : ¬ ((p.tasks t).remainingSleepTicks - 1 = 0) := by omega
  simp [checkTimeoutNode, tickDec, h0, h1]

/-- With exactly one sleep tick left, a non-sleeping blocked task is set
READY with `WAIT_TIMEOUT` by the sweep step. -/
theorem checkTimeoutNode_fire (p : TaskPool) (t : TaskId)
    (h1 : (p.tasks t).remainingSleepTicks = 1)
    (hbr : (p.tasks t).blockedReason ≠ BlockedReason.sleep) :
    ((checkTimeoutNode p t).tasks t).status = TaskStatus.ready ∧
      ((checkTimeoutNode p t).tasks t).wakeupReason = WakeupReason.waitTimeout := by
  simp [checkTimeoutNode, h1, hbr, taskSetReady, Function.update_same]

/-- Invariant of the sweep on a single blocked waiter: for `m` strictly below
the wait budget `n`, after `m` sweeps the task is still in the blocked queue
with `n - m` ticks left, its status and both reasons untouched. -/
theorem checkTimeout_iter_blocked (m : Nat) : ∀ (n : Nat) (p : TaskPool) (t : TaskId),
    p.blockedQueue = [t] →
    (p.tasks t).remainingSleepTicks = n →
    m < n →
    ((checkTimeout)^[m] p).blockedQueue = [t] ∧
    (((checkTimeout)^[m] p).tasks t).status = (p.tasks t).status ∧
    (((checkTimeout)^[m] p).tasks t).blockedReason = (p.tasks t).blockedReason ∧
    (((checkTimeout)^[m] p).tasks t).wakeupReason = (p.tasks t).wakeupReason ∧
    (((checkTimeout)^[m] p).tasks t).remainingSleepTicks = n - m := by
  induction m with
  | zero =>
      intro n p t hq hrem hm
      refine ⟨hq, rfl, rfl, rfl, ?_⟩
      show (p.tasks t).remainingSleepTicks = n - 0
      omega
  | succ m ih =>
      intro n p t hq hrem hm
      have h2 : 2 ≤ (p.tasks t).remainingSleepTicks := by omega
      have hstep : checkTimeout p = tickDec p t :=
        (checkTimeout_single p t hq).trans (checkTimeoutNode_dec p t h2)
      rw [Function.iterate_succ_apply, hstep]
      have hq1 : (tickDec p t).blockedQueue = [t] := hq
      have hrem1 : ((tickDec p t).tasks t).remainingSleepTicks = n - 1 := by
        simp [tickDec, Function.update_same, hrem]
      have hm1 : m < n - 1 := by omega
      have hmain := ih (n - 1) (tickDec p t) t hq1 hrem1 hm1
      refine ⟨hmain.1, ?_, ?_, ?_, ?_⟩
      · rw [hmain.2.1]; simp [tickDec, Function.update_same]
      · rw [hmain.2.2.1]; simp [tickDec, Function.update_same]
      · rw [hmain.2.2.2.1]; simp [tickDec, Function.update_same]
      · rw [hmain.2.2.2.2]; omega

/-- After exactly `n` sweeps (the full wait budget), a single blocked
non-sleeping waiter is set READY with `WAIT_TIMEOUT`. -/
theorem checkTimeout_iter_fires (n : Nat) (p : TaskPool) (t : TaskId)
    (hq : p.blockedQueue = [t])
    (hbr : (p.tasks t).blockedReason ≠ BlockedReason.sleep)
    (hrem : (p.tasks t).remainingSleepTicks = n)
    (hn : 1 ≤ n) :
    (((checkTimeout)^[n] p).tasks t).status = TaskStatus.ready ∧
      (((checkTimeout)^[n] p).tasks t).wakeupReason = WakeupReason.waitTimeout := by
  have hinv := checkTimeout_iter_blocked (n - 1) n p t hq hrem (by omega)
  have hiter : (checkTimeout)^[n] p = checkTimeout ((checkTimeout)^[n - 1] p) := by
    conv_lhs => rw [show n = (n - 1) + 1 by omega]
    rw [Function.iterate_succ_apply']
  rw [hiter, checkTimeout_single _ t hinv.1]
  exact checkTimeoutNode_fire _ t (by rw [hinv.2.2.2.2]; omega)
    (by rw [hinv.2.2.1]; exact hbr)

/-- Concrete TCB of a task blocked on a mutex with `waitTicks = TASK_MAX_WAIT`
(as set up by `taskBlock(currentTask, WAIT_FOR_MUTEX, 0xffffffff)`). -/
def c6Task : TaskInfo :=
  { priority := 5
    coreAffinity := -1
    status := TaskStatus.blocked
    blockedReason := BlockedReason.waitForMutex
    wakeupReason := WakeupReason.noReason
    remainingSleepTicks := TASK_MAX_WAIT }

/-- Concrete pool: task 0 is the only blocked task, waiting with
`TASK_MAX_WAIT`. -/
def c6Pool : TaskPool :=
  { tasks := fun _ => c6Task
    readyQueue := []
    blockedQueue := [0]
    current := 1
    currentSlot := 1
    nextSlot := 1 }

/-- C6 counterexample: a task blocked with `wait_ticks = TASK_MAX_WAIT`
(0xffffffff) does NOT wait forever.  After exactly 0xffffffff timeout
sweeps the sweep transitions it to READY with wakeup reason `WAIT_TIMEOUT`,
because `checkTimeout` decrements `remainingSleepTicks` unconditionally and
never special-cases `TASK_MAX_WAIT`. -/
theorem C6_counterexample :
    (c6Pool.tasks 0).remainingSleepTicks = TASK_MAX_WAIT ∧
    (c6Pool.tasks 0).status = TaskStatus.blocked ∧
    (((checkTimeout)^[TASK_MAX_WAIT] c6Pool).tasks 0).status = TaskStatus.ready ∧
    (((checkTimeout)^[TASK_MAX_WAIT] c6Pool).tasks 0).wakeupReason =
      WakeupReason.waitTimeout := by
  have h := checkTimeout_iter_fires TASK_MAX_WAIT c6Pool 0 rfl (by decide) rfl
    (by decide)
  exact ⟨rfl, rfl, h.1, h.2⟩

/-- C6 amended: a task blocked with `wait_ticks = TASK_MAX_WAIT` is not woken
by the timeout sweep during the first `TASK_MAX_WAIT - 1` ticks (it stays
BLOCKED and its wakeup reason is never `WAIT_TIMEOUT` in that window, so in
that window it leaves the blocked state only when explicitly woken by a
primitive or a suspend/resume); but `TASK_MAX_WAIT` is a finite wait of
2^32 - 1 ticks, not an infinite one: on the `TASK_MAX_WAIT`-th tick the
sweep sets the task READY with `WAIT_TIMEOUT`. -/
theorem C6_max_wait_times_out_finitely (p : TaskPool) (t : TaskId)
    (hq : p.blockedQueue = [t])
    (hst : (p.tasks t).status = TaskStatus.blocked)
    (hbr : (p.tasks t).blockedReason ≠ BlockedReason.sleep)
    (hwr : (p.tasks t).wakeupReason = WakeupReason.noReason)
    (hrem : (p.tasks t).remainingSleepTicks = TASK_MAX_WAIT) :
    (∀ m, m < TASK_MAX_WAIT →
      (((checkTimeout)^[m] p).tasks t).status = TaskStatus.blocked ∧
      (((checkTimeout)^[m] p).tasks t).wakeupReason ≠ WakeupReason.waitTimeout) ∧
    (((checkTimeout)^[TASK_MAX_WAIT] p).tasks t).status = TaskStatus.ready ∧
    (((checkTimeout)^[TASK_MAX_WAIT] p).tasks t).wakeupReason =
      WakeupReason.waitTimeout := by
  constructor
  · intro m hm
    have h := checkTimeout_iter_blocked m TASK_MAX_WAIT p t hq hrem hm
    constructor
    · rw [h.2.1, hst]
    · rw [h.2.2.2.1, hwr]
      intro hc
      cases hc
  · exact checkTimeout_iter_fires TASK_MAX_WAIT p t hq hbr hrem (by decide)

/-- Witness for the amended C6 at the concrete pool `c6Pool`. -/
theorem C6_witness :
    c6Pool.blockedQueue = [0] ∧
    (c6Pool.tasks 0).status = TaskStatus.blocked ∧
    (c6Pool.tasks 0).blockedReason ≠ BlockedReason.sleep ∧
    (c6Pool.tasks 0).wakeupReason = WakeupReason.noReason ∧
    (c6Pool.tasks 0).remainingSleepTicks = TASK_MAX_WAIT ∧
    (((checkTimeout)^[5] c6Pool).tasks 0).status = TaskStatus.blocked :=
  ⟨rfl, rfl, by decide, rfl, rfl,
    ((C6_max_wait_times_out_finitely c6Pool 0 rfl rfl (by decide) rfl rfl).1 5
      (by decide)).1⟩


/-! ### Claim C10: idempotence of `taskSuspend` -/

theorem taskSuspendDequeue_tasks (p : TaskPool) (t : TaskId) :
    (taskSuspendDequeue p t).tasks = p.tasks := by
  unfold taskSuspendDequeue
  split
  · rfl
  split
  · rfl
  rfl

theorem taskSuspendDequeue_current (p : TaskPool) (t : TaskId) :
    (taskSuspendDequeue p t).current = p.current := by
  unfold taskSuspendDequeue
  split
  · rfl
  split
  · rfl
  rfl

/-- On an already-suspended task the queue-removal phase removes nothing. -/
theorem taskSuspendDequeue_suspended (p : TaskPool) (t : TaskId)
    (hst : (p.tasks t).status = TaskStatus.suspended) :
    taskSuspendDequeue p t = p := by
  unfold taskSuspendDequeue
  rw [hst]
  simp

/-- `taskSuspend` on an already-suspended non-current task whose bookkeeping
fields are already cleared is a complete no-op. -/
theorem taskSuspend_suspended_noop (core : Nat) (p : TaskPool) (t : TaskId)
    (hst : (p.tasks t).status = TaskStatus.suspended)
    (hrem : (p.tasks t).remainingSleepTicks = 0)
    (hbr : (p.tasks t).blockedReason = BlockedReason.noReason)
    (hwr : (p.tasks t).wakeupReason = WakeupReason.noReason)
    (hcur : t ≠ p.current) :
    taskSuspend core p t = some p := by
  have hv : suspendFields (p.tasks t) = p.tasks t := by
    unfold suspendFields
    rw [← hrem, ← hbr, ← hwr, ← hst]
  have happ : taskSuspendApply p t = p := by
    simp only [taskSuspendApply, taskSuspendDequeue_suspended p t hst]
    rw [hv, Function.update_eq_self]
  simp only [taskSuspend]
  rw [happ, if_neg hcur]

/-- C10. `taskSuspend` is idempotent on a task that is not the current task:
(1) on an already-SUSPENDED task it removes nothing from any queue and
performs no yield, only rewriting the task's `remainingSleepTicks`,
`status`, `blockedReason` and `wakeupReason` fields; (2) when those fields
already hold the values a suspension writes (`0`, SUSPENDED, `None`,
`None`), the whole scheduler state is left unchanged; (3) a second
`taskSuspend` of the same task returns exactly the state produced by the
first. -/
theorem C10_taskSuspend_idempotent :
    (∀ (core : Nat) (p : TaskPool) (t : TaskId),
      (p.tasks t).status = TaskStatus.suspended → t ≠ p.current →
      taskSuspend core p t =
        some { p with tasks := Function.update p.tasks t (suspendFields (p.tasks t)) }) ∧
    (∀ (core : Nat) (p : TaskPool) (t : TaskId),
      (p.tasks t).status = TaskStatus.suspended → t ≠ p.current →
      (p.tasks t).remainingSleepTicks = 0 →
      (p.tasks t).blockedReason = BlockedReason.noReason →
      (p.tasks t).wakeupReason = WakeupReason.noReason →
      taskSuspend core p t = some p) ∧
    (∀ (core : Nat) (p : TaskPool) (t : TaskId) (p2 : TaskPool),
      t ≠ p.current → taskSuspend core p t = some p2 →
      taskSuspend core p2 t = some p2) := by
  refine ⟨?_, ?_, ?_⟩
  · intro core p t hst hcur
    have happ : taskSuspendApply p t =
        { p with tasks := Function.update p.tasks t (suspendFields (p.tasks t)) } := by
      simp only [taskSuspendApply, taskSuspendDequeue_suspended p t hst]
    simp only [taskSuspend]
    rw [happ]
    rw [show ({ p with
      tasks := Function.update p.tasks t (suspendFields (p.tasks t)) } : TaskPool).current =
        p.current from rfl]
    rw [if_neg hcur]
  · intro core p t hst hcur hrem hbr hwr
    exact taskSuspend_suspended_noop core p t hst hrem hbr hwr hcur
  · intro core p t p2 hcur hrun
    have hcc : (taskSuspendApply p t).current = p.current := by
      simp only [taskSuspendApply]
      rw [taskSuspendDequeue_current]
    have hshape : p2 = taskSuspendApply p t := by
      simp only [taskSuspend] at hrun
      rw [hcc, if_neg hcur] at hrun
      exact ((Option.some.injEq _ _).mp hrun).symm
    subst hshape
    have htt : (taskSuspendApply p t).tasks t = suspendFields (p.tasks t) := by
      simp only [taskSuspendApply]
      rw [taskSuspendDequeue_tasks, Function.update_same]
    refine taskSuspend_suspended_noop core _ t ?_ ?_ ?_ ?_ ?_
    · rw [htt]; rfl
    · rw [htt]; rfl
    · rw [htt]; rfl
    · rw [htt]; rfl
    · rw [hcc]; exact hcur

/-- Concrete pool for the C10 witness: task 3 is SUSPENDED with cleared
fields, task 0 is the RUNNING current task. -/
def w10Pool : TaskPool :=
  { tasks := fun i =>
      if i = 3 then
        ⟨9, -1, TaskStatus.suspended, BlockedReason.noReason, WakeupReason.noReason, 0⟩
      else
        ⟨5, -1, TaskStatus.running, BlockedReason.noReason, WakeupReason.noReason, 0⟩
    readyQueue := []
    blockedQueue := []
    current := 0
    currentSlot := 0
    nextSlot := 0 }

/-- Witness for C10: suspending the already-suspended task 3 leaves the
pool unchanged. -/
theorem C10_witness :
    (w10Pool.tasks 3).status = TaskStatus.suspended ∧
    (3 : TaskId) ≠ w10Pool.current ∧
    (w10Pool.tasks 3).remainingSleepTicks = 0 ∧
    (w10Pool.tasks 3).blockedReason = BlockedReason.noReason ∧
    (w10Pool.tasks 3).wakeupReason = WakeupReason.noReason ∧
    taskSuspend 0 w10Pool 3 = some w10Pool :=
  ⟨by decide, by decide, by decide, by decide, by decide,
    C10_taskSuspend_idempotent.2.1 0 w10Pool 3 (by decide) (by decide) (by decide)
      (by decide) (by decide)⟩

/-! ## Mutex (`src/source/mutex.c`) -/

/-- The mutex fields from `src/include/sanoRTOS/mutex.h` (`mutexHandleType`);
the spinlock word is not modelled (it only serialises access). -/
structure MutexState where
  waitQueue : List TaskId
  ownerTask : Option TaskId
  ownerDefaultPriority : Int
  locked : Bool
deriving DecidableEq, Repr

/-- `MUTEX_DEFINE` from `src/include/sanoRTOS/mutex.h`: initially unlocked,
no owner, no saved default priority, empty wait queue. -/
def mutexInit : MutexState :=
  { waitQueue := []
    ownerTask := none
    ownerDefaultPriority := -1
    locked := false }

/-- The immediate-acquisition path of `mutexLock` (lines 67-74 of
`src/source/mutex.c`): set `locked = true` and `ownerTask = currentTask`
together. -/
def mutexLockImmediate (m : MutexState) (caller : TaskId) : MutexState :=
  { m with locked := true, ownerTask := some caller }

/-- The `getNextOwner` / `getNextTask` / `getNextSignalTask` loop shared by
`mutexUnlock`, `semaphoreGive` and `condVarSignal`: repeatedly
`taskQueueGet` until the popped task is not SUSPENDED; suspended entries
are removed from the queue and skipped, ineligible entries stay in place. -/
def getNextWaiter (env : TaskId → TaskInfo) (core : Nat) :
    List TaskId → Option TaskId × List TaskId
  | [] => (none, [])
  | h :: rest =>
      if eligibleForCore env core h then
        if (env h).status = TaskStatus.suspended then getNextWaiter env core rest
        else (some h, rest)
      else
        let r := getNextWaiter env core rest
        (r.1, h :: r.2)

/-- `mutexUnlock` (lines 127-207 of `src/source/mutex.c`), restricted to its
effect on the mutex fields.  Returns the new mutex state, the task that is
passed to `taskSetReady(·, MUTEX_LOCKED)` (if any), and the return code.
The function refuses when the caller is not the owner (`RET_NOTOWNER`) or
the mutex is not locked (`RET_NOTLOCKED`).  On success it restores the
owner's default priority bookkeeping (`ownerDefaultPriority = -1`; the
corresponding TCB priority write only touches the task pool), pops the next
non-suspended owner from the wait queue and hands the mutex over
(`ownerTask = nextOwner`, still locked), or, with no eligible waiter, sets
`locked = false` and `ownerTask = NULL`.  The conditional `taskYield` at
the end does not touch the mutex fields. -/
def mutexUnlock (env : TaskId → TaskInfo) (core : Nat) (m : MutexState) (caller : TaskId) :
    MutexState × Option TaskId × Int :=
  if m.ownerTask = some caller then
    if m.locked then
      let m1 := { m with ownerDefaultPriority := -1 }
      let r := getNextWaiter env core m1.waitQueue
      match r.1 with
      | some nextOwner =>
          ({ m1 with waitQueue := r.2, ownerTask := some nextOwner }, some nextOwner,
            RET_SUCCESS)
      | none =>
          ({ m1 with waitQueue := r.2, locked := false, ownerTask := none }, none,
            RET_SUCCESS)
    else (m, none, RET_NOTLOCKED)
  else (m, none, RET_NOTOWNER)

/-- One mutation of a mutex by some task of the system, as performed by the
code paths of `src/source/mutex.c`:
* `acquire` — the immediate-acquisition path of `mutexLock` (lines 67-74);
* `enqueue` — a contended `mutexLock` with non-zero `waitTicks` adds the
  caller to the wait queue before blocking (line 84);
* `timeoutRemove` — a timed-out `mutexLock` removes the caller from the
  wait queue (line 102);
* `inheritSave` — the priority-inheritance block saves the owner's default
  priority in the mutex (lines 55-65; the owner's TCB priority write only
  touches the task pool);
* `unlockStep` — `mutexUnlock` by the owner (or a failed unlock by a
  non-owner, which leaves the state unchanged). -/
inductive MutexStep : MutexState → MutexState → Prop
  | acquire (m : MutexState) (caller : TaskId) (h : m.locked = false) :
      MutexStep m (mutexLockImmediate m caller)
  | enqueue (prio : TaskId → Nat) (m : MutexState) (caller : TaskId) (w : Nat)
      (hl : m.locked = true) (hw : w ≠ TASK_NO_WAIT) :
      MutexStep m { m with waitQueue := taskQueueAdd prio m.waitQueue caller }
  | timeoutRemove (m : MutexState) (caller : TaskId) :
      MutexStep m { m with waitQueue := taskQueueRemove m.waitQueue caller }
  | inheritSave (env : TaskId → TaskInfo) (m : MutexState) (o : TaskId)
      (ho : m.ownerTask = some o) :
      MutexStep m { m with ownerDefaultPriority := ((env o).priority : Int) }
  | unlockStep (env : TaskId → TaskInfo) (core : Nat) (m : MutexState) (caller : TaskId) :
      MutexStep m (mutexUnlock env core m caller).1

/-- Interference of the rest of the system on a mutex while some task is
blocked: any finite sequence of `MutexStep`s. -/
def MutexEvolve : MutexState → MutexState → Prop :=
  Relation.ReflTransGen MutexStep

/-- A mutex state reachable from the `MUTEX_DEFINE` initial state by any
sequence of `mutexLock` / `mutexUnlock` interactions. -/
def MutexReach (m : MutexState) : Prop :=
  MutexEvolve mutexInit m

/-- The C1 invariant: a mutex is locked exactly when it has an owner. -/
def mutexInv (m : MutexState) : Prop :=
  m.locked = true ↔ m.ownerTask ≠ none

theorem mutexStep_preserves_inv {m m' : MutexState} (hstep : MutexStep m m')
    (hinv : mutexInv m) : mutexInv m' := by
  cases hstep with
  | acquire m caller h =>
      constructor
      · intro _
        simp [mutexLockImmediate]
      · intro _
        rfl
  | enqueue prio m caller w hl hw => exact hinv
  | timeoutRemove m caller => exact hinv
  | inheritSave env m o ho => exact hinv
  | unlockStep env core m caller =>
      by_cases howner : m.ownerTask = some caller
      · by_cases hlocked : m.locked = true
        · simp only [mutexUnlock, howner, hlocked, if_true]
          cases hget : (getNextWaiter env core m.waitQueue).1 with
          | some t =>
              simp only [hget]
              constructor
              · intro _
                simp
              · intro _
                rfl
          | none =>
              simp only [hget]
              constructor
              · intro hc
                cases hc
              · intro hc
                exact absurd rfl hc
        · have hl : m.locked = false := by
            cases hml : m.locked
            · rfl
            · exact absurd hml hlocked
          simp only [mutexUnlock, howner, hl, if_true, Bool.false_eq_true, if_false]
          exact hinv
      · simp only [mutexUnlock, howner, if_false]
        exact hinv

theorem mutexEvolve_preserves_inv {m m' : MutexState} (hev : MutexEvolve m m')
    (hinv : mutexInv m) : mutexInv m' := by
  induction hev with
  | refl => exact hinv
  | tail hstep htail ih => exact mutexStep_preserves_inv htail ih

theorem mutexReach_inv {m : MutexState} (hr : MutexReach m) : mutexInv m := by
  refine mutexEvolve_preserves_inv hr ?_
  constructor
  · intro hc
    cases hc
  · intro hc
    exact absurd rfl hc

/-- Canonical single-waiter pool used to state that the timeout sweep really
delivers a `WAIT_TIMEOUT` wakeup to a task blocked with `w` wait ticks. -/
def soloBlockedPool (reason : BlockedReason) (w : Nat) : TaskPool :=
  { tasks := fun _ => ⟨0, -1, TaskStatus.blocked, reason, WakeupReason.noReason, w⟩
    readyQueue := []
    blockedQueue := [0]
    current := 1
    currentSlot := 1
    nextSlot := 1 }

/-- A blocking call with `w` wait ticks can be woken with `WAIT_TIMEOUT`:
after `w` sweeps of the embedded `checkTimeout`, the canonical blocked task
has wakeup reason `WAIT_TIMEOUT`.  This ties every timeout wakeup used in a
blocking-call run to the tick-handler code. -/
def timeoutFires (reason : BlockedReason) (w : Nat) : Prop :=
  (((checkTimeout)^[w] (soloBlockedPool reason w)).tasks 0).wakeupReason =
    WakeupReason.waitTimeout

theorem timeoutFires_of_pos (reason : BlockedReason) (w : Nat)
    (hr : reason ≠ BlockedReason.sleep) (hw : 1 ≤ w) : timeoutFires reason w :=
  (checkTimeout_iter_fires w (soloBlockedPool reason w) 0 rfl hr rfl hw).2

/-- Big-step runs of `mutexLock` (lines 44-117 of `src/source/mutex.c`) for a
given caller and `waitTicks` value `w`:
* `immediate` — the mutex is free: lock it at once, `RET_SUCCESS`;
* `busy` — locked and `w = TASK_NO_WAIT`: `RET_BUSY`, no change;
* `wakeLocked` — locked, `w ≠ 0`: enqueue, block; while blocked the mutex
  evolves under the environment; woken with `MUTEX_LOCKED` and
  `ownerTask == currentTask` (the test on line 95): `RET_SUCCESS`;
* `wakeTimeout` — as above but woken by the tick sweep with `WAIT_TIMEOUT`
  (possible for every `w ≥ 1`, witnessed by `timeoutFires`): remove the
  caller from the wait queue, `RET_TIMEOUT`;
* `wakeRetry` — woken for any other reason (suspend/resume): `goto retry`
  re-runs the whole body. -/
inductive MutexLockRun (caller : TaskId) (w : Nat) :
    MutexState → Int → MutexState → Prop
  | immediate (m : MutexState) (h : m.locked = false) :
      MutexLockRun caller w m RET_SUCCESS (mutexLockImmediate m caller)
  | busy (m : MutexState) (hl : m.locked = true) (hw : w = TASK_NO_WAIT) :
      MutexLockRun caller w m RET_BUSY m
  | wakeLocked (prio : TaskId → Nat) (m m1 : MutexState)
      (hl : m.locked = true) (hw : w ≠ TASK_NO_WAIT)
      (henv : MutexEvolve { m with waitQueue := taskQueueAdd prio m.waitQueue caller } m1)
      (hown : m1.ownerTask = some caller) :
      MutexLockRun caller w m RET_SUCCESS m1
  | wakeTimeout (prio : TaskId → Nat) (m m1 : MutexState)
      (hl : m.locked = true) (hw : w ≠ TASK_NO_WAIT)
      (hfire : timeoutFires BlockedReason.waitForMutex w)
      (henv : MutexEvolve { m with waitQueue := taskQueueAdd prio m.waitQueue caller } m1) :
      MutexLockRun caller w m RET_TIMEOUT
        { m1 with waitQueue := taskQueueRemove m1.waitQueue caller }
  | wakeRetry (prio : TaskId → Nat) (m m1 m2 : MutexState) (rc : Int)
      (hl : m.locked = true) (hw : w ≠ TASK_NO_WAIT)
      (henv : MutexEvolve { m with waitQueue := taskQueueAdd prio m.waitQueue caller } m1)
      (hrest : MutexLockRun caller w m1 rc m2) :
      MutexLockRun caller w m rc m2

/-- A successful `mutexLock` run leaves the mutex locked and owned by the
caller (given the C1 invariant at entry). -/
theorem mutexLockRun_success {caller : TaskId} {w : Nat} {m : MutexState} {rc : Int}
    {m' : MutexState} (hrun : MutexLockRun caller w m rc m') :
    mutexInv m → rc = RET_SUCCESS →
    m'.ownerTask = some caller ∧ m'.locked = true := by
  induction hrun with
  | immediate m h =>
      intro _ _
      exact ⟨rfl, rfl⟩
  | busy m hl hw =>
      intro _ hrc
      exact absurd hrc (by decide)
  | wakeLocked prio m m1 hl hw henv hown =>
      intro hinv _
      have hinv1 : mutexInv m1 := mutexEvolve_preserves_inv henv hinv
      refine ⟨hown, ?_⟩
      refine hinv1.mpr ?_
      rw [hown]
      intro hc
      cases hc
  | wakeTimeout prio m m1 hl hw hfire henv =>
      intro _ hrc
      exact absurd hrc (by decide)
  | wakeRetry prio m m1 m2 rc hl hw henv hrest ih =>
      intro hinv hrc
      exact ih (mutexEvolve_preserves_inv henv hinv) hrc

/-- A `mutexLock` run with a non-zero wait never returns `RET_BUSY`. -/
theorem mutexLockRun_no_busy {caller : TaskId} {w : Nat} {m : MutexState} {rc : Int}
    {m' : MutexState} (hrun : MutexLockRun caller w m rc m') (hw : w ≠ TASK_NO_WAIT) :
    rc ≠ RET_BUSY := by
  induction hrun with
  | immediate m h => decide
  | busy m hl hwz => exact absurd hwz hw
  | wakeLocked prio m m1 hl hwz henv hown => decide
  | wakeTimeout prio m m1 hl hwz hfire henv => decide
  | wakeRetry prio m m1 m2 rc hl hwz henv hrest ih => exact ih

/-- C1. (1) Every mutex state reachable from the initial state
(`locked=false, ownerTask=NULL`) by any sequence of `mutexLock` /
`mutexUnlock` interactions satisfies `locked = true ↔ ownerTask ≠ NULL`;
(2) a successful `mutexLock` run ends with `locked = true` and
`ownerTask = caller`, set together; (3) `mutexUnlock` by the owner of a
locked mutex succeeds and either hands ownership to a non-NULL next owner
popped from the wait queue with `locked` remaining `true`, or, when no
eligible waiter exists, sets `locked = false` and `ownerTask = NULL`. -/
theorem C1_mutex_locked_iff_owner :
    (∀ m : MutexState, MutexReach m → (m.locked = true ↔ m.ownerTask ≠ none)) ∧
    (∀ (caller : TaskId) (w : Nat) (m m' : MutexState),
      mutexInv m → MutexLockRun caller w m RET_SUCCESS m' →
      m'.ownerTask = some caller ∧ m'.locked = true) ∧
    (∀ (env : TaskId → TaskInfo) (core : Nat) (m : MutexState) (caller : TaskId),
      m.ownerTask = some caller → m.locked = true →
      (mutexUnlock env core m caller).2.2 = RET_SUCCESS ∧
      ((∃ t, (mutexUnlock env core m caller).2.1 = some t ∧
          (mutexUnlock env core m caller).1.ownerTask = some t ∧
          (mutexUnlock env core m caller).1.locked = true ∧
          (getNextWaiter env core m.waitQueue).1 = some t) ∨
        ((mutexUnlock env core m caller).2.1 = none ∧
          (mutexUnlock env core m caller).1.ownerTask = none ∧
          (mutexUnlock env core m caller).1.locked = false))) := by
  refine ⟨?_, ?_, ?_⟩
  · intro m hr
    exact mutexReach_inv hr
  · intro caller w m m' hinv hrun
    exact mutexLockRun_success hrun hinv rfl
  · intro env core m caller howner hlocked
    cases hget : (getNextWaiter env core m.waitQueue).1 with
    | some t =>
        have hu : mutexUnlock env core m caller =
            ({ waitQueue := (getNextWaiter env core m.waitQueue).2
               ownerTask := some t
               ownerDefaultPriority := -1
               locked := true }, some t, RET_SUCCESS) := by
          simp only [mutexUnlock, howner, hlocked, if_true, hget]
        rw [hu]
        exact ⟨rfl, Or.inl ⟨t, rfl, rfl, rfl, rfl⟩⟩
    | none =>
        have hu : mutexUnlock env core m caller =
            ({ waitQueue := (getNextWaiter env core m.waitQueue).2
               ownerTask := none
               ownerDefaultPriority := -1
               locked := false }, none, RET_SUCCESS) := by
          simp only [mutexUnlock, howner, hlocked, if_true, hget]
        rw [hu]
        exact ⟨rfl, Or.inr ⟨rfl, rfl, rfl⟩⟩

/-- Witness for C1 at concrete inputs: the initial mutex is reachable and
satisfies the invariant, and an immediate lock by task 0 sets both fields. -/
theorem C1_witness :
    MutexReach mutexInit ∧
    mutexInv mutexInit ∧
    (mutexInit.locked = true ↔ mutexInit.ownerTask ≠ none) ∧
    ((mutexLockImmediate mutexInit 0).ownerTask = some 0 ∧
      (mutexLockImmediate mutexInit 0).locked = true) :=
  ⟨Relation.ReflTransGen.refl,
    ⟨fun h => Bool.noConfusion h, fun h => absurd rfl h⟩,
    C1_mutex_locked_iff_owner.1 mutexInit Relation.ReflTransGen.refl,
    C1_mutex_locked_iff_owner.2.1 0 5 mutexInit (mutexLockImmediate mutexInit 0)
      ⟨fun h => Bool.noConfusion h, fun h => absurd rfl h⟩
      (MutexLockRun.immediate mutexInit rfl)⟩

/-! ## Semaphore (`src/source/semaphore.c`) -/

/-- The semaphore fields from `src/include/sanoRTOS/semaphore.h`
(`semaphoreHandleType`); the spinlock word is not modelled. -/
structure SemState where
  waitQueue : List TaskId
  count : Nat
  maxCount : Nat
deriving DecidableEq, Repr

/-- A waiter that `semaphoreGive` can actually wake: eligible for the
calling core and not SUSPENDED. -/
def goodWaiter (env : TaskId → TaskInfo) (core : Nat) (u : TaskId) : Bool :=
  eligibleForCore env core u ∧ (env u).status ≠ TaskStatus.suspended

/-- `getNextWaiter` pops exactly the first wakeable waiter: the wakeable
entries of the queue lose precisely their first element. -/
theorem getNextWaiter_some_filter (env : TaskId → TaskInfo) (core : Nat) :
    ∀ (q : List TaskId) (t : TaskId) (q2 : List TaskId),
    getNextWaiter env core q = (some t, q2) →
    goodWaiter env core t = true ∧
    q.filter (goodWaiter env core) = t :: q2.filter (goodWaiter env core) := by
  intro q
  induction q with
  | nil =>
      intro t q2 h
      simp [getNextWaiter] at h
  | cons h rest ih =>
      intro t q2 hget
      by_cases he : eligibleForCore env core h
      · by_cases hs : (env h).status = TaskStatus.suspended
        · have hg : goodWaiter env core h = false := by
            simp [goodWaiter, hs]
          simp only [getNextWaiter, he, hs, if_true] at hget
          have := ih t q2 hget
          refine ⟨this.1, ?_⟩
          rw [List.filter_cons_of_neg (by simp [hg]), this.2]
        · simp only [getNextWaiter, he, hs, if_true, if_false] at hget
          have hgt : goodWaiter env core h = true := by
            simp [goodWaiter, he, hs]
          have hth : t = h ∧ q2 = rest := by
            constructor
            · exact ((Option.some.injEq _ _).mp (congrArg Prod.fst hget)).symm
            · exact (congrArg Prod.snd hget).symm
          rcases hth with ⟨rfl, rfl⟩
          exact ⟨hgt, by rw [List.filter_cons_of_pos (by simp [hgt])]⟩
      · have hg : goodWaiter env core h = false := by
          simp [goodWaiter, he]
        simp only [getNextWaiter, he, if_false] at hget
        have h1 : (getNextWaiter env core rest).1 = some t := congrArg Prod.fst hget
        have h2 : q2 = h :: (getNextWaiter env core rest).2 :=
          (congrArg Prod.snd hget).symm
        have hpair : getNextWaiter env core rest =
            (some t, (getNextWaiter env core rest).2) := by
          rw [← h1]
        have := ih t _ hpair
        refine ⟨this.1, ?_⟩
        rw [h2, List.filter_cons_of_neg (by simp [hg]),
          List.filter_cons_of_neg (by simp [hg]), this.2]

/-- When the queue holds no wakeable waiter, `getNextWaiter` returns NULL. -/
theorem getNextWaiter_isSome_of_mem (env : TaskId → TaskInfo) (core : Nat) :
    ∀ (q : List TaskId) (u : TaskId), u ∈ q → goodWaiter env core u = true →
    ∃ t q2, getNextWaiter env core q = (some t, q2) := by
  intro q
  induction q with
  | nil =>
      intro u hu
      cases hu
  | cons h rest ih =>
      intro u hu hgu
      by_cases he : eligibleForCore env core h
      · by_cases hs : (env h).status = TaskStatus.suspended
        · rcases List.mem_cons.mp hu with rfl | hu'
          · exfalso
            simp [goodWaiter, he, hs] at hgu
          · rcases ih u hu' hgu with ⟨t, q2, hres⟩
            exact ⟨t, q2, by simp only [getNextWaiter, he, hs, if_true]; exact hres⟩
        · exact ⟨h, rest, by simp [getNextWaiter, he, hs]⟩
      · rcases List.mem_cons.mp hu with rfl | hu'
        · exfalso
          simp [goodWaiter, he] at hgu
        · rcases ih u hu' hgu with ⟨t, q2, hres⟩
          refine ⟨t, h :: q2, ?_⟩
          simp only [getNextWaiter, he, if_false]
          rw [hres]
          simp

/-- In a sorted queue, the first wakeable waiter has minimal priority value
among all wakeable waiters (it is the highest-priority one). -/
theorem filter_head_min_of_sorted (prio : TaskId → Nat) (f : TaskId → Bool)
    (q : List TaskId) (t : TaskId) (rest : List TaskId)
    (hs : QueueSorted prio q) (hf : q.filter f = t :: rest) :
    ∀ u ∈ q, f u = true → prio t ≤ prio u := by
  intro u hu hfu
  have hufil : u ∈ q.filter f := List.mem_filter.mpr ⟨hu, hfu⟩
  rw [hf] at hufil
  have hpair : List.Pairwise (fun a b => prio a ≤ prio b) (q.filter f) :=
    (List.chain'_iff_pairwise.mp hs).sublist (List.filter_sublist q)
  rw [hf] at hpair
  rcases List.mem_cons.mp hufil with rfl | hu'
  · exact le_refl _
  · exact (List.pairwise_cons.mp hpair).1 u hu'

/-- Membership is preserved by `taskQueueAdd`, and the inserted task is a
member of the result. -/
theorem mem_taskQueueAdd (prio : TaskId → Nat) (q : List TaskId) (t : TaskId) :
    t ∈ taskQueueAdd prio q t ∧ ∀ u ∈ q, u ∈ taskQueueAdd prio q t := by
  rw [taskQueueAdd_eq_takeWhile]
  constructor
  · simp
  · intro u hu
    rw [← List.takeWhile_append_dropWhile (fun n => prio n ≤ prio t) q] at hu
    rcases List.mem_append.mp hu with h1 | h2
    · exact List.mem_append.mpr (Or.inl h1)
    · exact List.mem_append.mpr (Or.inr (List.mem_cons.mpr (Or.inr h2)))

/-- Updating a task's TCB without touching its core affinity does not change
any eligibility test. -/
theorem eligibleForCore_update (env : TaskId → TaskInfo) (core : Nat) (x : TaskId)
    (ti : TaskInfo) (haff : ti.coreAffinity = (env x).coreAffinity) (u : TaskId) :
    eligibleForCore (Function.update env x ti) core u = eligibleForCore env core u := by
  unfold eligibleForCore
  by_cases hu : u = x
  · subst hu
    rw [Function.update_same, haff]
  · rw [Function.update_noteq hu]

/-- `selectNextTaskFinish` succeeds when some ready task is eligible. -/
theorem selectNextTaskFinish_isSome (core : Nat) (p : TaskPool)
    (hex : ∃ u ∈ p.readyQueue, eligibleForCore p.tasks core u = true) :
    ∃ pr, selectNextTaskFinish core p = some pr := by
  obtain ⟨u, hu, he⟩ := hex
  obtain ⟨v, hv⟩ := taskQueuePeek_isSome_of_mem p.tasks core p.readyQueue u hu he
  have hfst : (taskQueueGet p.tasks core p.readyQueue).1 = some v := by
    rw [taskQueueGet_fst_eq_peek]
    exact hv
  have hpair : taskQueueGet p.tasks core p.readyQueue =
      (some v, (taskQueueGet p.tasks core p.readyQueue).2) := by
    rw [← hfst]
  exact ⟨_, selectNextTaskFinish_some core p v _ hpair⟩

/-- `selectNextTask` does not hit the NULL dereference when some ready task
is eligible for the calling core. -/
theorem selectNextTask_isSome (core : Nat) (p : TaskPool)
    (hex : ∃ u ∈ p.readyQueue, eligibleForCore p.tasks core u = true) :
    ∃ pr, selectNextTask core p = some pr := by
  obtain ⟨u, hu, he⟩ := hex
  have hne : p.readyQueue.isEmpty = false := by
    cases hq : p.readyQueue with
    | nil => rw [hq] at hu; cases hu
    | cons a l => rfl
  by_cases hrun : (p.tasks p.current).status = TaskStatus.running
  · obtain ⟨nxt, hpeek⟩ := taskQueuePeek_isSome_of_mem p.tasks core p.readyQueue u hu he
    by_cases hle : (p.tasks nxt).priority ≤ (p.tasks p.current).priority
    · have hex1 : ∃ w ∈ (demoteCurrent p).readyQueue,
          eligibleForCore (demoteCurrent p).tasks core w = true := by
        refine ⟨u, ?_, ?_⟩
        · exact (mem_taskQueueAdd (fun v => ((demoteCurrent p).tasks v).priority)
            p.readyQueue p.current).2 u hu
        · exact (eligibleForCore_update p.tasks core p.current
            { p.tasks p.current with status := TaskStatus.ready } rfl u).trans he
      obtain ⟨pr, hpr⟩ := selectNextTaskFinish_isSome core (demoteCurrent p) hex1
      refine ⟨pr, ?_⟩
      rw [show selectNextTask core p = selectNextTaskFinish core (demoteCurrent p) from ?_]
      · exact hpr
      · simp [selectNextTask, hne, hrun, hpeek, hle]
    · exact ⟨(p, false), by simp [selectNextTask, hne, hrun, hpeek, hle]⟩
  · obtain ⟨pr, hpr⟩ := selectNextTaskFinish_isSome core p ⟨u, hu, he⟩
    refine ⟨pr, ?_⟩
    rw [show selectNextTask core p = selectNextTaskFinish core p from ?_]
    · exact hpr
    · simp [selectNextTask, hne, hrun]

/-- `taskYield` succeeds when some ready task is eligible for the core. -/
theorem taskYield_isSome (core : Nat) (p : TaskPool)
    (hex : ∃ u ∈ p.readyQueue, eligibleForCore p.tasks core u = true) :
    ∃ p2, taskYield core p = some p2 := by
  obtain ⟨⟨p1, b⟩, hsel⟩ := selectNextTask_isSome core p hex
  exact ⟨p1, by simp [taskYield, hsel]⟩

/-- Result of `semaphoreGive`: the updated pool and semaphore, the return
code, the task handed the token (if any), and whether a context switch was
requested. -/
structure SemGiveResult where
  pool : TaskPool
  sem : SemState
  retCode : Int
  wokenTask : Option TaskId
  contextSwitchRequired : Bool

/-- The body of `semaphoreGive` (lines 110-158 of `src/source/semaphore.c`)
up to the final conditional `taskYield`: if `count != maxCount`, pop the
next non-suspended eligible waiter; if one exists, set it READY with
`SEMAPHORE_TAKEN` and request a context switch when its priority value is
`≤` the current task's — `count` is NOT incremented; with no such waiter,
increment `count`.  Either way `RET_SUCCESS`.  If `count == maxCount`,
`RET_NOSEM` and no change. -/
def semaphoreGiveCore (core : Nat) (p : TaskPool) (s : SemState) : SemGiveResult :=
  if s.count ≠ s.maxCount then
    let r := getNextWaiter p.tasks core s.waitQueue
    match r.1 with
    | some nextTask =>
        let p1 := taskSetReady p nextTask WakeupReason.semaphoreTaken
        { pool := p1
          sem := { s with waitQueue := r.2 }
          retCode := RET_SUCCESS
          wokenTask := some nextTask
          contextSwitchRequired :=
            (p1.tasks nextTask).priority ≤ (p1.tasks p1.current).priority }
    | none =>
        { pool := p
          sem := { s with waitQueue := r.2, count := s.count + 1 }
          retCode := RET_SUCCESS
          wokenTask := none
          contextSwitchRequired := false }
  else
    { pool := p
      sem := s
      retCode := RET_NOSEM
      wokenTask := none
      contextSwitchRequired := false }

/-- `semaphoreGive` (lines 110-166 of `src/source/semaphore.c`): the body
followed by `taskYield` when a context switch was requested. -/
def semaphoreGive (core : Nat) (p : TaskPool) (s : SemState) : Option SemGiveResult :=
  let r := semaphoreGiveCore core p s
  if r.contextSwitchRequired then
    match taskYield core r.pool with
    | none => none
    | some p2 => some { r with pool := p2 }
  else some r

/-- Field-level description of `taskSetReady`: the woken task becomes READY
with the given wakeup reason, keeps its priority and affinity, lands in the
ready queue, and no other TCB or the current-task slot changes. -/
theorem taskSetReady_fields (p : TaskPool) (t : TaskId) (reason : WakeupReason) :
    ((taskSetReady p t reason).tasks t).status = TaskStatus.ready ∧
    ((taskSetReady p t reason).tasks t).wakeupReason = reason ∧
    ((taskSetReady p t reason).tasks t).priority = (p.tasks t).priority ∧
    ((taskSetReady p t reason).tasks t).coreAffinity = (p.tasks t).coreAffinity ∧
    (taskSetReady p t reason).current = p.current ∧
    t ∈ (taskSetReady p t reason).readyQueue ∧
    (∀ u, u ≠ t → (taskSetReady p t reason).tasks u = p.tasks u) := by
  unfold taskSetReady
  split
  · refine ⟨by simp [Function.update_same], by simp [Function.update_same],
      by simp [Function.update_same], by simp [Function.update_same], rfl, ?_, ?_⟩
    · simp only []
      exact (mem_taskQueueAdd _ _ t).1
    · intro u hu
      simp [Function.update_noteq hu]
  · refine ⟨by simp [Function.update_same], by simp [Function.update_same],
      by simp [Function.update_same], by simp [Function.update_same], rfl, ?_, ?_⟩
    · simp only []
      exact (mem_taskQueueAdd _ _ t).1
    · intro u hu
      simp [Function.update_noteq hu]

/-- `taskSetReady` does not change eligibility (affinities are untouched). -/
theorem eligibleForCore_taskSetReady (p : TaskPool) (t : TaskId) (reason : WakeupReason)
    (core : Nat) (u : TaskId) :
    eligibleForCore (taskSetReady p t reason).tasks core u =
      eligibleForCore p.tasks core u := by
  unfold taskSetReady
  split
  · simp only []
    exact eligibleForCore_update p.tasks core t
      { priority := (p.tasks t).priority, coreAffinity := (p.tasks t).coreAffinity,
        status := TaskStatus.ready, blockedReason := BlockedReason.noReason,
        wakeupReason := reason, remainingSleepTicks := 0 } rfl u
  · simp only []
    exact eligibleForCore_update p.tasks core t
      { priority := (p.tasks t).priority, coreAffinity := (p.tasks t).coreAffinity,
        status := TaskStatus.ready, blockedReason := BlockedReason.noReason,
        wakeupReason := reason, remainingSleepTicks := 0 } rfl u

/-- C4. When the count is below the maximum (in particular `count = 0`) and
the wait queue holds a non-SUSPENDED waiter eligible for the calling core,
`semaphoreGive` succeeds (`RET_SUCCESS`), hands the token directly to the
first (and, on a sorted queue, highest-priority) such waiter: that waiter
is removed from the wait queue — exactly one wakeable waiter disappears —
is set READY with wakeup reason `SEMAPHORE_TAKEN`, and `count` is NOT
incremented (a zero count stays zero). -/
theorem C4_semaphoreGive_direct_handoff
    (core : Nat) (p : TaskPool) (s : SemState) (t : TaskId) (q2 : List TaskId)
    (hcnt : s.count < s.maxCount)
    (hget : getNextWaiter p.tasks core s.waitQueue = (some t, q2)) :
    (semaphoreGiveCore core p s).retCode = RET_SUCCESS ∧
    (semaphoreGiveCore core p s).wokenTask = some t ∧
    (semaphoreGiveCore core p s).sem.count = s.count ∧
    (semaphoreGiveCore core p s).sem.waitQueue = q2 ∧
    goodWaiter p.tasks core t = true ∧
    s.waitQueue.filter (goodWaiter p.tasks core) =
      t :: q2.filter (goodWaiter p.tasks core) ∧
    ((semaphoreGiveCore core p s).pool.tasks t).status = TaskStatus.ready ∧
    ((semaphoreGiveCore core p s).pool.tasks t).wakeupReason =
      WakeupReason.semaphoreTaken ∧
    (QueueSorted (fun v => (p.tasks v).priority) s.waitQueue →
      ∀ u ∈ s.waitQueue, goodWaiter p.tasks core u = true →
        (p.tasks t).priority ≤ (p.tasks u).priority) ∧
    (∃ r2, semaphoreGive core p s = some r2 ∧ r2.retCode = RET_SUCCESS ∧
      r2.wokenTask = some t ∧ r2.sem.count = s.count ∧ r2.sem.waitQueue = q2) := by
  have hne : s.count ≠ s.maxCount := Nat.ne_of_lt hcnt
  have hfil := getNextWaiter_some_filter p.tasks core s.waitQueue t q2 hget
  have hcore : semaphoreGiveCore core p s =
      { pool := taskSetReady p t WakeupReason.semaphoreTaken
        sem := { s with waitQueue := q2 }
        retCode := RET_SUCCESS
        wokenTask := some t
        contextSwitchRequired :=
          ((taskSetReady p t WakeupReason.semaphoreTaken).tasks t).priority ≤
            ((taskSetReady p t WakeupReason.semaphoreTaken).tasks
              (taskSetReady p t WakeupReason.semaphoreTaken).current).priority } := by
    simp only [semaphoreGiveCore, hne, hget, ne_eq, not_false_iff, if_true]
  have hready := taskSetReady_fields p t WakeupReason.semaphoreTaken
  refine ⟨by rw [hcore], by rw [hcore], by rw [hcore], by rw [hcore], hfil.1, hfil.2,
    ?_, ?_, ?_, ?_⟩
  · rw [hcore]
    exact hready.1
  · rw [hcore]
    exact hready.2.1
  · intro hs u hu hgu
    exact filter_head_min_of_sorted (fun v => (p.tasks v).priority)
      (goodWaiter p.tasks core) s.waitQueue t _ hs hfil.2 u hu hgu
  · have heligt : eligibleForCore p.tasks core t = true := by
      have := hfil.1
      simp only [goodWaiter, Bool.decide_and, Bool.and_eq_true, decide_eq_true_eq] at this
      exact this.1
    cases hcs : (semaphoreGiveCore core p s).contextSwitchRequired with
    | false =>
        refine ⟨semaphoreGiveCore core p s, ?_, by rw [hcore], by rw [hcore], by rw [hcore],
          by rw [hcore]⟩
        simp only [semaphoreGive, hcs, Bool.false_eq_true, if_false]
    | true =>
        have hexr : ∃ u ∈ (semaphoreGiveCore core p s).pool.readyQueue,
            eligibleForCore (semaphoreGiveCore core p s).pool.tasks core u = true := by
          refine ⟨t, ?_, ?_⟩
          · rw [hcore]
            exact hready.2.2.2.2.2.1
          · rw [hcore]
            rw [eligibleForCore_taskSetReady]
            exact heligt
        obtain ⟨p2, hp2⟩ := taskYield_isSome core (semaphoreGiveCore core p s).pool hexr
        refine ⟨{ semaphoreGiveCore core p s with pool := p2 }, ?_, by rw [hcore],
          by rw [hcore], by rw [hcore], by rw [hcore]⟩
        simp only [semaphoreGive, hcs, if_true, hp2]

/-- Concrete inputs for the C4 witness: task 2 (priority 3, any affinity)
waits on the semaphore, the current task 0 runs; the semaphore has
`count = 0`, `maxCount = 1`. -/
def w4Tasks : TaskId → TaskInfo := fun i =>
  if i = 2 then
    ⟨3, -1, TaskStatus.blocked, BlockedReason.waitForSemaphore, WakeupReason.noReason, 10⟩
  else
    ⟨5, -1, TaskStatus.running, BlockedReason.noReason, WakeupReason.noReason, 0⟩

def w4Pool : TaskPool :=
  { tasks := w4Tasks
    readyQueue := []
    blockedQueue := [2]
    current := 0
    currentSlot := 0
    nextSlot := 0 }

def w4Sem : SemState := { waitQueue := [2], count := 0, maxCount := 1 }

/-- Witness for C4 at the concrete semaphore/pool. -/
theorem C4_witness :
    w4Sem.count < w4Sem.maxCount ∧
    getNextWaiter w4Pool.tasks 0 w4Sem.waitQueue = (some 2, []) ∧
    (semaphoreGiveCore 0 w4Pool w4Sem).retCode = RET_SUCCESS ∧
    (semaphoreGiveCore 0 w4Pool w4Sem).sem.count = w4Sem.count :=
  ⟨by decide, by decide,
    (C4_semaphoreGive_direct_handoff 0 w4Pool w4Sem 2 [] (by decide) (by decide)).1,
    (C4_semaphoreGive_direct_handoff 0 w4Pool w4Sem 2 [] (by decide) (by decide)).2.2.1⟩

/-! ## Message queue (`src/source/messageQueue.c`) -/

/-- The message queue fields from `src/include/sanoRTOS/messageQueue.h`
(`msgQueueHandleType`); the buffer is a byte list of length
`queueLength * itemSize`, and `readIndex` / `writeIndex` are byte offsets. -/
structure MsgQueueState where
  buffer : List Nat
  readIndex : Nat
  writeIndex : Nat
  itemCount : Nat
  queueLength : Nat
  itemSize : Nat
  producerWaitQueue : List TaskId
  consumerWaitQueue : List TaskId
deriving DecidableEq, Repr

/-- `msgQueueFull` from `src/include/sanoRTOS/messageQueue.h`. -/
def msgQueueFull (q : MsgQueueState) : Bool :=
  q.itemCount = q.queueLength

/-- `msgQueueEmpty` from `src/include/sanoRTOS/messageQueue.h`. -/
def msgQueueEmpty (q : MsgQueueState) : Bool :=
  q.itemCount = 0

/-- `memcpy(&buffer[idx], item, itemSize)` on the byte-list buffer. -/
def bufferCopyIn (buffer : List Nat) (idx : Nat) (item : List Nat) (itemSize : Nat) :
    List Nat :=
  buffer.take idx ++ item.take itemSize ++ buffer.drop (idx + itemSize)

/-- The body of `msgQueueBufferWrite` (lines 41-90 of
`src/source/messageQueue.c`) up to the final conditional `taskYield`: if the
queue is not full, copy the item at `writeIndex`, advance `writeIndex` by
`itemSize` modulo `queueLength * itemSize`, increment `itemCount`, and wake
the next non-suspended waiting consumer (if any) with
`MSG_QUEUE_DATA_AVAILABLE`, requesting a context switch when the consumer's
priority value is `≤` the current task's; returns `true`.  On a full queue:
no mutation, returns `false`. -/
def msgQueueBufferWriteCore (core : Nat) (p : TaskPool) (q : MsgQueueState)
    (item : List Nat) : TaskPool × MsgQueueState × Bool × Bool :=
  if ¬ msgQueueFull q then
    let q1 := { q with
      buffer := bufferCopyIn q.buffer q.writeIndex item q.itemSize
      writeIndex := (q.writeIndex + q.itemSize) % (q.queueLength * q.itemSize)
      itemCount := q.itemCount + 1 }
    let r := getNextWaiter p.tasks core q1.consumerWaitQueue
    match r.1 with
    | some consumer =>
        let p1 := taskSetReady p consumer WakeupReason.msgQueueDataAvailable
        (p1, { q1 with consumerWaitQueue := r.2 }, true,
          (p1.tasks consumer).priority ≤ (p1.tasks p1.current).priority)
    | none => (p, { q1 with consumerWaitQueue := r.2 }, true, false)
  else (p, q, false, false)

/-- `msgQueueBufferWrite` (lines 41-90 of `src/source/messageQueue.c`):
the body followed by `taskYield` when a context switch was requested. -/
def msgQueueBufferWrite (core : Nat) (p : TaskPool) (q : MsgQueueState)
    (item : List Nat) : Option (TaskPool × MsgQueueState × Bool) :=
  let r := msgQueueBufferWriteCore core p q item
  if r.2.2.2 then
    match taskYield core r.1 with
    | none => none
    | some p2 => some (p2, r.2.1, r.2.2.1)
  else some (r.1, r.2.1, r.2.2.1)

/-- A full queue makes `msgQueueBufferWrite` return `false` without mutating
anything. -/
theorem msgQueueBufferWrite_full (core : Nat) (p : TaskPool) (q : MsgQueueState)
    (item : List Nat) (hfull : msgQueueFull q = true) :
    msgQueueBufferWrite core p q item = some (p, q, false) := by
  have hcore : msgQueueBufferWriteCore core p q item = (p, q, false, false) := by
    simp only [msgQueueBufferWriteCore, hfull, not_true, if_neg, not_false_iff]
  simp only [msgQueueBufferWrite, hcore]
  simp

/-- Big-step runs of `msgQueueSend` (lines 163-217 of
`src/source/messageQueue.c`) for a given caller and `waitTicks` value `w`.
While the caller is blocked (after having been added to the producer wait
queue, lines 186-191), other tasks may change the pool and the queue
arbitrarily; that interference appears as the unconstrained intermediate
states `p1, q1`:
* `writeOk` — the bounded write succeeds at once: `RET_SUCCESS`;
* `fullNoWait` — the write fails (queue full) and `w = TASK_NO_WAIT`:
  `RET_FULL`;
* `blockedOk` — the write fails, `w ≠ 0`: block; woken with
  `MSG_QUEUE_SPACE_AVAILABE` and the retried write succeeds: `RET_SUCCESS`;
* `blockedTimeout` — woken by the tick sweep with `WAIT_TIMEOUT`
  (`timeoutFires`): the caller is removed from the producer wait queue,
  `RET_TIMEOUT`;
* `blockedRetry` — woken for any other reason, or woken with space
  available but beaten to the slot by another producer: `goto retry`. -/
inductive MsgQueueSendRun (core : Nat) (caller : TaskId) (item : List Nat) (w : Nat) :
    TaskPool → MsgQueueState → Int → TaskPool → MsgQueueState → Prop
  | writeOk (p : TaskPool) (q : MsgQueueState) (p1 : TaskPool) (q1 : MsgQueueState)
      (h : msgQueueBufferWrite core p q item = some (p1, q1, true)) :
      MsgQueueSendRun core caller item w p q RET_SUCCESS p1 q1
  | fullNoWait (p : TaskPool) (q : MsgQueueState) (p1 : TaskPool) (q1 : MsgQueueState)
      (h : msgQueueBufferWrite core p q item = some (p1, q1, false))
      (hw : w = TASK_NO_WAIT) :
      MsgQueueSendRun core caller item w p q RET_FULL p1 q1
  | blockedOk (p : TaskPool) (q : MsgQueueState) (p1 p2 : TaskPool)
      (q1 q2 : MsgQueueState)
      (hw : w ≠ TASK_NO_WAIT)
      (hfail : msgQueueBufferWrite core p q item = some (p, q, false))
      (hwrite : msgQueueBufferWrite core p1 q1 item = some (p2, q2, true)) :
      MsgQueueSendRun core caller item w p q RET_SUCCESS p2 q2
  | blockedTimeout (p : TaskPool) (q : MsgQueueState) (p1 : TaskPool)
      (q1 : MsgQueueState)
      (hw : w ≠ TASK_NO_WAIT)
      (hfail : msgQueueBufferWrite core p q item = some (p, q, false))
      (hfire : timeoutFires BlockedReason.waitForMsgQueueSpace w) :
      MsgQueueSendRun core caller item w p q RET_TIMEOUT p1
        { q1 with producerWaitQueue := taskQueueRemove q1.producerWaitQueue caller }
  | blockedRetry (p : TaskPool) (q : MsgQueueState) (p1 p2 : TaskPool)
      (q1 q2 : MsgQueueState) (rc : Int)
      (hw : w ≠ TASK_NO_WAIT)
      (hfail : msgQueueBufferWrite core p q item = some (p, q, false))
      (hrest : MsgQueueSendRun core caller item w p1 q1 rc p2 q2) :
      MsgQueueSendRun core caller item w p q rc p2 q2

/-- C7. On a full message queue, `msgQueueSend` with `waitTicks =
TASK_NO_WAIT` returns `RET_FULL` and leaves the whole queue state unchanged:
`writeIndex`, `readIndex`, `itemCount` and the buffer contents are exactly
as before the call (as is the task pool). -/
theorem C7_msgQueueSend_full_no_wait
    (core : Nat) (caller : TaskId) (item : List Nat) (p : TaskPool) (q : MsgQueueState)
    (rc : Int) (p2 : TaskPool) (q2 : MsgQueueState)
    (hfull : q.itemCount = q.queueLength)
    (hrun : MsgQueueSendRun core caller item TASK_NO_WAIT p q rc p2 q2) :
    rc = RET_FULL ∧ p2 = p ∧ q2 = q ∧
    q2.writeIndex = q.writeIndex ∧ q2.readIndex = q.readIndex ∧
    q2.itemCount = q.itemCount ∧ q2.buffer = q.buffer := by
  have hfq : msgQueueFull q = true := by
    simp [msgQueueFull, hfull]
  have hw := msgQueueBufferWrite_full core p q item hfq
  cases hrun with
  | writeOk p q p1 q1 h =>
      rw [hw] at h
      exact absurd ((Option.some.injEq _ _).mp h) (by simp)
  | fullNoWait pa qa pb qb h hwz =>
      rw [hw] at h
      simp only [Option.some.injEq, Prod.mk.injEq] at h
      obtain ⟨hp, hq, -⟩ := h
      subst hp
      subst hq
      exact ⟨rfl, rfl, rfl, rfl, rfl, rfl, rfl⟩
  | blockedOk p q p1 p2 q1 q2 hwz hfail hwrite => exact absurd rfl hwz
  | blockedTimeout p q p1 q1 hwz hfail hfire => exact absurd rfl hwz
  | blockedRetry p q p1 p2 q1 q2 rc hwz hfail hrest => exact absurd rfl hwz

/-- Concrete inputs for the C7 witness: a full queue of 2 one-byte items. -/
def w7Pool : TaskPool :=
  { tasks := fun _ =>
      ⟨5, -1, TaskStatus.running, BlockedReason.noReason, WakeupReason.noReason, 0⟩
    readyQueue := []
    blockedQueue := []
    current := 0
    currentSlot := 0
    nextSlot := 0 }

def w7Queue : MsgQueueState :=
  { buffer := [7, 8]
    readIndex := 0
    writeIndex := 0
    itemCount := 2
    queueLength := 2
    itemSize := 1
    producerWaitQueue := []
    consumerWaitQueue := [] }

/-- Witness for C7: sending to the full two-item queue with `TASK_NO_WAIT`
returns `RET_FULL` and changes nothing. -/
theorem C7_witness :
    w7Queue.itemCount = w7Queue.queueLength ∧
    MsgQueueSendRun 0 1 [9] TASK_NO_WAIT w7Pool w7Queue RET_FULL w7Pool w7Queue ∧
    RET_FULL = RET_FULL := by
  have hrun : MsgQueueSendRun 0 1 [9] TASK_NO_WAIT w7Pool w7Queue RET_FULL w7Pool w7Queue :=
    MsgQueueSendRun.fullNoWait w7Pool w7Queue w7Pool w7Queue rfl rfl
  exact ⟨rfl, hrun,
    (C7_msgQueueSend_full_no_wait 0 1 [9] w7Pool w7Queue RET_FULL w7Pool w7Queue rfl
      hrun).1 ▸ rfl⟩

/-! ## Software timers (`src/source/timer.c`) -/

/-- Timer identifier: stands for a `timerNodeType *`; the timer's handler is
identified with the timer itself in the dispatch queue. -/
abbrev TimerId := Nat

/-- `timerModeType` from `src/include/sanoRTOS/timer.h`. -/
inductive TimerMode where
  | singleShot
  | periodic
deriving DecidableEq, Repr

/-- The timer fields from `src/include/sanoRTOS/timer.h` (`timerNodeType`)
used by the timer algorithms. -/
structure TimerState where
  intervalTicks : Nat
  ticksToExpire : Nat
  mode : TimerMode
  isRunning : Bool
deriving DecidableEq, Repr

/-- The timer subsystem state: the list of running timers (`timerList`), the
per-timer fields, the FIFO dispatch queue of pushed timeout handlers
(`timeoutHandlerQueue`, tail insertion), and the status of the dedicated
timer task (only its BLOCKED→READY wakeup matters to `processTimers`). -/
structure TimerSys where
  timerList : List TimerId
  timers : TimerId → TimerState
  dispatchQueue : List TimerId
  timerTaskStatus : TaskStatus

/-- `timerListNodeDelete`'s unlinking (lines 126-148 of
`src/source/timer.c`): remove the first node holding the timer. -/
def timerListRemove : List TimerId → TimerId → List TimerId
  | [], _ => []
  | h :: rest, t => if h = t then rest else h :: timerListRemove rest t

/-- `timerStart` (lines 158-175 of `src/source/timer.c`): refuse when already
running; otherwise mark running, set
`ticksToExpire = intervalTicks = interval` and push the node on the front of
the running-timer list. -/
def timerStart (sys : TimerSys) (t : TimerId) (intervalTicks : Nat) : TimerSys × Int :=
  if (sys.timers t).isRunning then (sys, RET_ALREADYACTIVE)
  else
    let ti := { sys.timers t with
      isRunning := true
      ticksToExpire := intervalTicks
      intervalTicks := intervalTicks }
    ({ sys with
        timers := Function.update sys.timers t ti
        timerList := t :: sys.timerList }, RET_SUCCESS)

/-- `timerStop` (lines 186-196 of `src/source/timer.c`): refuse when not
running; otherwise clear `isRunning` and unlink the node
(`timerListNodeDelete`, which reports `RET_EMPTY` on an empty list). -/
def timerStop (sys : TimerSys) (t : TimerId) : TimerSys × Int :=
  if (sys.timers t).isRunning then
    let sys1 := { sys with
      timers := Function.update sys.timers t { sys.timers t with isRunning := false } }
    if sys1.timerList ≠ [] then
      ({ sys1 with timerList := timerListRemove sys1.timerList t }, RET_SUCCESS)
    else (sys1, RET_EMPTY)
  else (sys, RET_NOTACTIVE)

/-- The body of the `processTimers` loop for one timer node (lines 210-232
of `src/source/timer.c`): decrement `ticksToExpire` if positive; on reaching
zero, push the handler onto the dispatch queue (tail), wake the timer task
if it is BLOCKED, reset `ticksToExpire = intervalTicks`, and stop the timer
if it is single-shot. -/
def processTimersNode (sys : TimerSys) (t : TimerId) : TimerSys :=
  let ti := sys.timers t
  let ti1 := if 0 < ti.ticksToExpire then
      { ti with ticksToExpire := ti.ticksToExpire - 1 }
    else ti
  let sys1 := { sys with timers := Function.update sys.timers t ti1 }
  if ti1.ticksToExpire = 0 then
    let sys2 := { sys1 with
      dispatchQueue := sys1.dispatchQueue ++ [t]
      timerTaskStatus :=
        if sys1.timerTaskStatus = TaskStatus.blocked then TaskStatus.ready
        else sys1.timerTaskStatus }
    let sys3 := { sys2 with
      timers := Function.update sys2.timers t
        { ti1 with ticksToExpire := ti1.intervalTicks } }
    if ti1.mode = TimerMode.singleShot then (timerStop sys3 t).1 else sys3
  else sys1

/-- The running-timer walk of `processTimers`, over the snapshot of the list
taken when the walk starts (the C loop saves each node's `next` pointer
before the node can unlink itself). -/
def processTimersWalk (sys : TimerSys) : List TimerId → TimerSys
  | [] => sys
  | t :: rest => processTimersWalk (processTimersNode sys t) rest

/-- `processTimers` (lines 202-236 of `src/source/timer.c`): one tick of the
timer sweep run by the core-0 tick handler. -/
def processTimers (sys : TimerSys) : TimerSys :=
  if sys.timerList ≠ [] then processTimersWalk sys sys.timerList else sys

/-- With an empty running-timer list, `processTimers` is the identity. -/
theorem processTimers_empty (sys : TimerSys) (h : sys.timerList = []) :
    processTimers sys = sys := by
  simp [processTimers, h]

/-- A single sweep on a lone running periodic timer with at least two ticks
left only decrements its countdown. -/
theorem processTimers_periodic_dec (sys : TimerSys) (t : TimerId) (k c : Nat)
    (hlist : sys.timerList = [t])
    (hti : sys.timers t = ⟨k, c, TimerMode.periodic, true⟩)
    (hc : 2 ≤ c) :
    processTimers sys =
      { sys with
        timers := Function.update sys.timers t ⟨k, c - 1, TimerMode.periodic, true⟩ } := by
  have h0 : 0 < c := by omega
  have hne : ¬ (c - 1 = 0) := by omega
  simp [processTimers, processTimersWalk, processTimersNode, hlist, hti, h0, hne]

/-- A single sweep on a lone running periodic timer with one tick left
pushes its handler onto the dispatch queue, wakes the timer task if
blocked, and reloads the countdown with the interval. -/
theorem processTimers_periodic_fire (sys : TimerSys) (t : TimerId) (k : Nat)
    (hlist : sys.timerList = [t])
    (hti : sys.timers t = ⟨k, 1, TimerMode.periodic, true⟩) :
    processTimers sys =
      { sys with
        timers := Function.update sys.timers t ⟨k, k, TimerMode.periodic, true⟩
        dispatchQueue := sys.dispatchQueue ++ [t]
        timerTaskStatus :=
          if sys.timerTaskStatus = TaskStatus.blocked then TaskStatus.ready
          else sys.timerTaskStatus } := by
  simp [processTimers, processTimersWalk, processTimersNode, hlist, hti,
    Function.update_idem]

/-- Invariant of the sweep on a lone running periodic timer of interval `k`:
after `n` sweeps the timer is still the only running timer, its countdown is
`k - n % k`, and its handler has been pushed exactly `⌊n / k⌋` times. -/
theorem processTimers_iter_periodic (k : Nat) (hk : 1 ≤ k) :
    ∀ (n : Nat) (sys : TimerSys) (t : TimerId),
    sys.timerList = [t] →
    sys.timers t = ⟨k, k, TimerMode.periodic, true⟩ →
    ((processTimers)^[n] sys).timerList = [t] ∧
    ((processTimers)^[n] sys).timers t = ⟨k, k - n % k, TimerMode.periodic, true⟩ ∧
    ((processTimers)^[n] sys).dispatchQueue.count t =
      sys.dispatchQueue.count t + n / k := by
  intro n
  induction n with
  | zero =>
      intro sys t hlist hti
      refine ⟨hlist, ?_, by simp⟩
      simpa [Nat.zero_mod] using hti
  | succ n ih =>
      intro sys t hlist hti
      obtain ⟨hl, ht, hd⟩ := ih sys t hlist hti
      have hk0 : 0 < k := hk
      have hmodlt : n % k < k := Nat.mod_lt n hk0
      rw [Function.iterate_succ_apply']
      by_cases hlast : n % k = k - 1
      · have htte : k - n % k = 1 := by omega
        have hfirestep := processTimers_periodic_fire ((processTimers)^[n] sys) t k hl
          (by rw [ht, htte])
        have hmodsucc : (n + 1) % k = 0 := by
          rw [← Nat.mod_add_mod, hlast, show k - 1 + 1 = k from by omega, Nat.mod_self]
        have hdvd : k ∣ (n + 1) := Nat.dvd_iff_mod_eq_zero.mpr hmodsucc
        have hdivsucc : (n + 1) / k = n / k + 1 := by
          rw [Nat.succ_div, if_pos hdvd]
        rw [hfirestep]
        refine ⟨hl, ?_, ?_⟩
        · rw [show ({ (processTimers)^[n] sys with
            timers := Function.update ((processTimers)^[n] sys).timers t
              ⟨k, k, TimerMode.periodic, true⟩
            dispatchQueue := ((processTimers)^[n] sys).dispatchQueue ++ [t]
            timerTaskStatus :=
              if ((processTimers)^[n] sys).timerTaskStatus = TaskStatus.blocked then
                TaskStatus.ready
              else ((processTimers)^[n] sys).timerTaskStatus } : TimerSys).timers =
            Function.update ((processTimers)^[n] sys).timers t
              ⟨k, k, TimerMode.periodic, true⟩ from rfl]
          rw [Function.update_same, hmodsucc]
          simp
        · simp [List.count_append, hd, hdivsucc]
          omega
      · have hk2 : 2 ≤ k := by omega
        have htte : 2 ≤ k - n % k := by omega
        have hdecstep := processTimers_periodic_dec ((processTimers)^[n] sys) t k (k - n % k)
          hl ht htte
        have hmodsucc : (n + 1) % k = n % k + 1 := by
          rw [← Nat.mod_add_mod]
          exact Nat.mod_eq_of_lt (by omega)
        have hnodvd : ¬ k ∣ (n + 1) := by
          intro hdvd
          have := Nat.dvd_iff_mod_eq_zero.mp hdvd
          omega
        have hdivsucc : (n + 1) / k = n / k := by
          rw [Nat.succ_div, if_neg hnodvd]
          omega
        rw [hdecstep]
        refine ⟨hl, ?_, ?_⟩
        · rw [show ({ (processTimers)^[n] sys with
            timers := Function.update ((processTimers)^[n] sys).timers t
              ⟨k, k - n % k - 1, TimerMode.periodic, true⟩ } : TimerSys).timers =
            Function.update ((processTimers)^[n] sys).timers t
              ⟨k, k - n % k - 1, TimerMode.periodic, true⟩ from rfl]
          rw [Function.update_same, hmodsucc]
          congr 1
        · simp only [hd, hdivsucc]

/-- Starting a stopped timer resets its countdown and interval to the given
value, keeps its mode, marks it running, links it at the front of the
running-timer list and returns `RET_SUCCESS`. -/
theorem timerStart_fresh (sys : TimerSys) (t : TimerId) (k : Nat)
    (hnotrun : (sys.timers t).isRunning = false)
    (hmode : (sys.timers t).mode = TimerMode.periodic) :
    timerStart sys t k =
      ({ sys with
          timers := Function.update sys.timers t ⟨k, k, TimerMode.periodic, true⟩
          timerList := t :: sys.timerList }, RET_SUCCESS) := by
  cases hst : sys.timers t with
  | mk i c m r =>
      rw [hst] at hmode hnotrun
      simp only [TimerState.mode] at hmode
      simp only [TimerState.isRunning] at hnotrun
      subst hmode
      subst hnotrun
      simp [timerStart, hst]

/-- Stopping a running timer that is the sole entry of the running-timer
list succeeds, clears `isRunning` and empties the list. -/
theorem timerStop_solo (sys : TimerSys) (t : TimerId)
    (hlist : sys.timerList = [t])
    (hrun : (sys.timers t).isRunning = true) :
    (timerStop sys t).2 = RET_SUCCESS ∧ (timerStop sys t).1.timerList = [] := by
  simp [timerStop, hrun, hlist, timerListRemove]

/-- C8. For every periodic timer started with `timerStart(t, k)` (`k ≥ 1`)
from a stopped state: the start succeeds with a fresh countdown
`ticksToExpire = intervalTicks = k`; after `n` tick sweeps the timer fields
are `⟨k, k - n % k, periodic, running⟩` (the countdown is reloaded with the
interval on each expiry); the handler has been pushed onto the dispatch
queue exactly `⌊n / k⌋` times, and the sweep `n + 1` pushes it exactly when
`k ∣ n + 1` — i.e. at every `k`-th tick; and stopping the timer at any
point returns `RET_SUCCESS` and makes every later sweep the identity, so no
subsequent sweep enqueues the handler. -/
theorem C8_periodic_timer_every_k (sys : TimerSys) (t : TimerId) (k : Nat)
    (hk : 1 ≤ k)
    (hnotrun : (sys.timers t).isRunning = false)
    (hmode : (sys.timers t).mode = TimerMode.periodic)
    (hlist : sys.timerList = []) :
    (timerStart sys t k).2 = RET_SUCCESS ∧
    (∀ n : Nat, ((processTimers)^[n] (timerStart sys t k).1).timers t =
      ⟨k, k - n % k, TimerMode.periodic, true⟩) ∧
    (∀ n : Nat, ((processTimers)^[n] (timerStart sys t k).1).dispatchQueue.count t =
      sys.dispatchQueue.count t + n / k) ∧
    (∀ n : Nat,
      ((processTimers)^[n + 1] (timerStart sys t k).1).dispatchQueue.count t =
        ((processTimers)^[n] (timerStart sys t k).1).dispatchQueue.count t + 1 ↔
      k ∣ (n + 1)) ∧
    (∀ n : Nat,
      (timerStop ((processTimers)^[n] (timerStart sys t k).1) t).2 = RET_SUCCESS ∧
      ∀ m : Nat,
        (processTimers)^[m] (timerStop ((processTimers)^[n] (timerStart sys t k).1) t).1 =
          (timerStop ((processTimers)^[n] (timerStart sys t k).1) t).1) := by
  have hstart := timerStart_fresh sys t k hnotrun hmode
  have h0 : (timerStart sys t k).2 = RET_SUCCESS := by rw [hstart]
  have h1 : (timerStart sys t k).1.timerList = [t] := by rw [hstart]; simp [hlist]
  have h2 : (timerStart sys t k).1.timers t = ⟨k, k, TimerMode.periodic, true⟩ := by
    rw [hstart]
    exact Function.update_same t _ sys.timers
  have hdq : (timerStart sys t k).1.dispatchQueue = sys.dispatchQueue := by rw [hstart]
  have hiter := fun n => processTimers_iter_periodic k hk n (timerStart sys t k).1 t h1 h2
  have hcount : ∀ n : Nat,
      ((processTimers)^[n] (timerStart sys t k).1).dispatchQueue.count t =
        sys.dispatchQueue.count t + n / k := by
    intro n
    rw [(hiter n).2.2, hdq]
  refine ⟨h0, fun n => (hiter n).2.1, hcount, ?_, ?_⟩
  · intro n
    rw [hcount n, hcount (n + 1), Nat.succ_div]
    by_cases hdvd : k ∣ (n + 1)
    · simp only [hdvd, if_true, iff_true]
      omega
    · simp only [hdvd, if_false, iff_false]
      omega
  · intro n
    have hstop := timerStop_solo ((processTimers)^[n] (timerStart sys t k).1) t (hiter n).1
      (by rw [(hiter n).2.1])
    refine ⟨hstop.1, fun m => Function.iterate_fixed ?_ m⟩
    exact processTimers_empty _ hstop.2

/-- Concrete timer subsystem for the C8 witness: one stopped periodic
timer, empty running list and dispatch queue. -/
def w8Sys : TimerSys :=
  { timerList := []
    timers := fun _ => ⟨0, 0, TimerMode.periodic, false⟩
    dispatchQueue := []
    timerTaskStatus := TaskStatus.ready }

/-- C8 witness: the claim theorem applied to the concrete subsystem `w8Sys`
with timer `0` and interval `2`. -/
theorem C8_witness :
    1 ≤ 2 ∧ (timerStart w8Sys 0 2).2 = RET_SUCCESS ∧
      ((processTimers)^[5] (timerStart w8Sys 0 2).1).dispatchQueue.count 0 =
        (w8Sys.dispatchQueue.count 0 : Nat) + 5 / 2 :=
  ⟨by decide,
    (C8_periodic_timer_every_k w8Sys 0 2 (by decide) rfl rfl rfl).1,
    (C8_periodic_timer_every_k w8Sys 0 2 (by decide) rfl rfl rfl).2.2.1 5⟩

/-! ## Condition variables (`src/source/conditionVariable.c`) -/

/-- The state touched by `condVarWait`: the associated mutex
(`pCondVar->pMutex`) and the condition variable's wait queue. -/
structure CVState where
  mtx : MutexState
  cvq : List TaskId
deriving DecidableEq, Repr

/-- Interference of other tasks on a condition-variable wait queue while the
caller is blocked, closed under the operations the code performs on it:
other waiters enqueue themselves (`taskQueueAdd` in `condVarWait`),
`condVarSignal` / `condVarBroadcast` pop (`taskQueueGet`), and timed-out
waiters remove themselves (`taskQueueRemove`). -/
inductive CvQEvolve (prio : TaskId → Nat) : List TaskId → List TaskId → Prop
  | refl (q : List TaskId) : CvQEvolve prio q q
  | add (q q1 : List TaskId) (u : TaskId) (h : CvQEvolve prio q q1) :
      CvQEvolve prio q (taskQueueAdd prio q1 u)
  | pop (env : TaskId → TaskInfo) (core : Nat) (q q1 : List TaskId)
      (h : CvQEvolve prio q q1) :
      CvQEvolve prio q (taskQueueGet env core q1).2
  | remove (q q1 : List TaskId) (u : TaskId) (h : CvQEvolve prio q q1) :
      CvQEvolve prio q (taskQueueRemove q1 u)

/-- The `wait:` loop of `condVarWait` (lines 58-85 of
`src/source/conditionVariable.c`): enqueue the caller on the wait queue,
block with `WAIT_FOR_COND_VAR`; while blocked the mutex evolves under the
environment and the wait queue under `CvQEvolve`; on wakeup:
* `signalled` — `wakeupReason == COND_VAR_SIGNALLED`: `retCode = RET_SUCCESS`;
* `timedOut` — `wakeupReason == WAIT_TIMEOUT` (delivered by the tick sweep,
  witnessed by `timeoutFires`): remove the caller from the wait queue,
  `retCode = RET_TIMEOUT`;
* `retry` — any other wakeup (suspend/resume): `goto wait` re-runs the
  loop. -/
inductive CondVarLoop (caller : TaskId) (w : Nat) : CVState → Int → CVState → Prop
  | signalled (prio : TaskId → Nat) (s : CVState) (m1 : MutexState) (q1 : List TaskId)
      (henv : MutexEvolve s.mtx m1)
      (hq : CvQEvolve prio (taskQueueAdd prio s.cvq caller) q1) :
      CondVarLoop caller w s RET_SUCCESS ⟨m1, q1⟩
  | timedOut (prio : TaskId → Nat) (s : CVState) (m1 : MutexState) (q1 : List TaskId)
      (henv : MutexEvolve s.mtx m1)
      (hq : CvQEvolve prio (taskQueueAdd prio s.cvq caller) q1)
      (hfire : timeoutFires BlockedReason.waitForCondVar w) :
      CondVarLoop caller w s RET_TIMEOUT ⟨m1, taskQueueRemove q1 caller⟩
  | retry (prio : TaskId → Nat) (s : CVState) (m1 : MutexState) (q1 : List TaskId)
      (rc : Int) (out : CVState)
      (henv : MutexEvolve s.mtx m1)
      (hq : CvQEvolve prio (taskQueueAdd prio s.cvq caller) q1)
      (hrest : CondVarLoop caller w ⟨m1, q1⟩ rc out) :
      CondVarLoop caller w s rc out

/-- Big-step runs of `condVarWait` (lines 44-92 of
`src/source/conditionVariable.c`): unlock the associated mutex with the
return value of `mutexUnlock` DISCARDED (line 53), run the `wait:` loop,
then re-acquire the mutex with `mutexLock(pMutex, TASK_MAX_WAIT)` whose
return value `rcLock` is also discarded (line 89); the run returns the
loop's `retCode`. -/
inductive CondVarWaitRun (env : TaskId → TaskInfo) (core : Nat) (caller : TaskId)
    (w : Nat) : CVState → Int → CVState → Prop
  | run (s : CVState) (rcWait : Int) (sLoop : CVState) (rcLock : Int)
      (mFinal : MutexState)
      (hloop : CondVarLoop caller w
        ⟨(mutexUnlock env core s.mtx caller).1, s.cvq⟩ rcWait sLoop)
      (hlock : MutexLockRun caller TASK_MAX_WAIT sLoop.mtx rcLock mFinal) :
      CondVarWaitRun env core caller w s rcWait ⟨mFinal, sLoop.cvq⟩

/-- The `wait:` loop only ever produces `RET_SUCCESS` or `RET_TIMEOUT`. -/
theorem condVarLoop_rc {caller : TaskId} {w : Nat} {s : CVState} {rc : Int}
    {out : CVState} (hloop : CondVarLoop caller w s rc out) :
    rc = RET_SUCCESS ∨ rc = RET_TIMEOUT := by
  induction hloop with
  | signalled prio s m1 q1 henv hq => exact Or.inl rfl
  | timedOut prio s m1 q1 henv hq hfire => exact Or.inr rfl
  | retry prio s m1 q1 rc out henv hq hrest ih => exact ih

/-- Every `wait:` loop derivation starts by adding the caller to the
condition variable's wait queue; the queue then evolves from that enqueued
queue under the environment. -/
theorem condVarLoop_enqueues {caller : TaskId} {w : Nat} {s : CVState} {rc : Int}
    {out : CVState} (hloop : CondVarLoop caller w s rc out) :
    ∃ (prio : TaskId → Nat) (q1 : List TaskId),
      CvQEvolve prio (taskQueueAdd prio s.cvq caller) q1 ∧
      caller ∈ taskQueueAdd prio s.cvq caller := by
  cases hloop with
  | signalled prio s m1 q1 henv hq =>
      exact ⟨prio, q1, hq, (mem_taskQueueAdd prio s.cvq caller).1⟩
  | timedOut prio s m1 q1 henv hq hfire =>
      exact ⟨prio, q1, hq, (mem_taskQueueAdd prio s.cvq caller).1⟩
  | retry prio s m1 q1 rc out henv hq hrest =>
      exact ⟨prio, q1, hq, (mem_taskQueueAdd prio s.cvq caller).1⟩

/-- Task-pool snapshot used by the condition-variable counterexample and
witnesses: every task ready, any-core affinity. -/
def c5Env : TaskId → TaskInfo :=
  fun _ => ⟨0, AFFINITY_CORE_ANY, TaskStatus.ready, BlockedReason.noReason,
    WakeupReason.noReason, 0⟩

/-- Entry mutex of the C5 counterexample: locked and owned by the caller
(task `0`), as the condition-variable protocol expects. -/
def c5BadM : MutexState :=
  { waitQueue := []
    ownerTask := some 0
    ownerDefaultPriority := -1
    locked := true }

/-- Final mutex of the C5 counterexample: locked and owned by task `1`,
not by the caller. -/
def c5OutM : MutexState :=
  { waitQueue := []
    ownerTask := some 1
    ownerDefaultPriority := -1
    locked := true }

/-- C5 counterexample: a complete `condVarWait` run by task `0` with
`waitTicks = 5`, starting from a mutex locked and owned by the caller, that
returns `RET_TIMEOUT` while the mutex is owned by task `1`, not by the
caller: the entry `mutexUnlock` frees the mutex, task `1` acquires it while
the caller waits, the wait times out, and the final
`mutexLock(pMutex, TASK_MAX_WAIT)` also times out (`TASK_MAX_WAIT` is a
finite wait of `2^32 - 1` ticks) with its return code discarded. -/
theorem C5_counterexample :
    CondVarWaitRun c5Env 0 0 5 ⟨c5BadM, []⟩ RET_TIMEOUT ⟨c5OutM, []⟩ ∧
    (RET_TIMEOUT = RET_SUCCESS ∨ RET_TIMEOUT = RET_TIMEOUT) ∧
    c5OutM.ownerTask ≠ some 0 := by
  refine ⟨?_, Or.inr rfl, by decide⟩
  refine CondVarWaitRun.run _ RET_TIMEOUT ⟨mutexLockImmediate mutexInit 1, []⟩
    RET_TIMEOUT c5OutM ?_ ?_
  · exact CondVarLoop.timedOut (fun _ => 0) _ (mutexLockImmediate mutexInit 1) [0]
      (Relation.ReflTransGen.single (MutexStep.acquire mutexInit 1 rfl))
      (CvQEvolve.refl _)
      (timeoutFires_of_pos BlockedReason.waitForCondVar 5 (by decide) (by decide))
  · exact MutexLockRun.wakeTimeout (fun _ => 0) _ _ rfl (by decide)
      (timeoutFires_of_pos BlockedReason.waitForMutex TASK_MAX_WAIT (by decide)
        (by decide))
      Relation.ReflTransGen.refl

/-- C5 (amended). Every `condVarWait` run returns only `RET_SUCCESS` or
`RET_TIMEOUT`, and on both return paths it re-acquires the associated
mutex with `mutexLock(pMutex, TASK_MAX_WAIT)` before returning (so the
re-acquisition never reports `RET_BUSY`); whenever that final `mutexLock`
itself returns `RET_SUCCESS` (given the mutex invariant at that point),
the mutex is locked and owned by the calling task at the moment of return.
But `TASK_MAX_WAIT` is a finite wait of `2^32 - 1` ticks, not an unbounded
one, so the re-acquisition can end with `RET_TIMEOUT` — which the code
discards — leaving the mutex not held by the caller
(`C5_counterexample`). -/
theorem C5_condvar_reacquire_on_success (env : TaskId → TaskInfo) (core : Nat)
    (caller : TaskId) (w : Nat) (s : CVState) (rcWait : Int) (out : CVState)
    (hrun : CondVarWaitRun env core caller w s rcWait out) :
    (rcWait = RET_SUCCESS ∨ rcWait = RET_TIMEOUT) ∧
    ∃ (sLoop : CVState) (rcLock : Int),
      CondVarLoop caller w ⟨(mutexUnlock env core s.mtx caller).1, s.cvq⟩ rcWait sLoop ∧
      MutexLockRun caller TASK_MAX_WAIT sLoop.mtx rcLock out.mtx ∧
      rcLock ≠ RET_BUSY ∧
      (mutexInv sLoop.mtx → rcLock = RET_SUCCESS →
        out.mtx.ownerTask = some caller ∧ out.mtx.locked = true) := by
  cases hrun with
  | run sLoop rcLock mFinal hloop hlock =>
      exact ⟨condVarLoop_rc hloop, sLoop, rcLock, hloop, hlock,
        mutexLockRun_no_busy hlock (by decide),
        fun hinv hrc => mutexLockRun_success hlock hinv hrc⟩

/-- C5 witness: the amended theorem applied to a concrete successful run:
caller `0`, `waitTicks = 5`, initial mutex free, signalled wakeup, final
re-acquisition through the immediate path. -/
theorem C5_witness :
    (RET_SUCCESS = RET_SUCCESS ∨ RET_SUCCESS = RET_TIMEOUT) ∧
    ∃ (sLoop : CVState) (rcLock : Int),
      CondVarLoop 0 5 ⟨(mutexUnlock c5Env 0 (⟨mutexInit, []⟩ : CVState).mtx 0).1,
        (⟨mutexInit, []⟩ : CVState).cvq⟩ RET_SUCCESS sLoop ∧
      MutexLockRun 0 TASK_MAX_WAIT sLoop.mtx rcLock
        (⟨mutexLockImmediate mutexInit 0, [0]⟩ : CVState).mtx ∧
      rcLock ≠ RET_BUSY ∧
      (mutexInv sLoop.mtx → rcLock = RET_SUCCESS →
        (⟨mutexLockImmediate mutexInit 0, [0]⟩ : CVState).mtx.ownerTask = some 0 ∧
        (⟨mutexLockImmediate mutexInit 0, [0]⟩ : CVState).mtx.locked = true) := by
  refine C5_condvar_reacquire_on_success c5Env 0 0 5 ⟨mutexInit, []⟩ RET_SUCCESS
    ⟨mutexLockImmediate mutexInit 0, [0]⟩ ?_
  refine CondVarWaitRun.run _ RET_SUCCESS ⟨mutexInit, [0]⟩ RET_SUCCESS _ ?_ ?_
  · exact CondVarLoop.signalled (fun _ => 0) _ mutexInit [0]
      Relation.ReflTransGen.refl (CvQEvolve.refl _)
  · exact MutexLockRun.immediate _ rfl

/-- Task-pool snapshot for the C9 witness: every task ready, any-core
affinity. -/
def c9Env : TaskId → TaskInfo :=
  fun _ => ⟨0, AFFINITY_CORE_ANY, TaskStatus.ready, BlockedReason.noReason,
    WakeupReason.noReason, 0⟩

/-- Mutex for the C9 witness: locked and owned by task `1`, so caller `0`
violates the ownership precondition of `condVarWait`. -/
def c9M : MutexState :=
  { waitQueue := []
    ownerTask := some 1
    ownerDefaultPriority := -1
    locked := true }

/-- C9. `condVarWait` calls `mutexUnlock` unconditionally and discards its
return value: (1) when the caller does not own the mutex, `mutexUnlock`
returns `RET_NOTOWNER` and leaves the mutex state unchanged (so the failed
unlock is silent); (2) every `wait:` loop derivation nevertheless starts by
adding the caller to the condition variable's wait queue; (3) the
`taskBlock` performed by the loop marks the caller BLOCKED with reason
`WAIT_FOR_COND_VAR`; (4) every complete `condVarWait` run — including runs
from a mutex the caller does not own — returns only `RET_SUCCESS` or
`RET_TIMEOUT`, never `RET_NOTOWNER`: the violated ownership precondition is
never detected or reported to the caller. -/
theorem C9_condvar_unlock_unchecked :
    (∀ (env : TaskId → TaskInfo) (core : Nat) (m : MutexState) (caller : TaskId),
      m.ownerTask ≠ some caller →
      mutexUnlock env core m caller = (m, none, RET_NOTOWNER)) ∧
    (∀ (caller : TaskId) (w : Nat) (s : CVState) (rc : Int) (out : CVState),
      CondVarLoop caller w s rc out →
      ∃ (prio : TaskId → Nat) (q1 : List TaskId),
        CvQEvolve prio (taskQueueAdd prio s.cvq caller) q1 ∧
        caller ∈ taskQueueAdd prio s.cvq caller) ∧
    (∀ (p : TaskPool) (caller : TaskId) (w : Nat),
      ((taskBlock p caller BlockedReason.waitForCondVar w).tasks caller).status =
        TaskStatus.blocked ∧
      ((taskBlock p caller BlockedReason.waitForCondVar w).tasks caller).blockedReason =
        BlockedReason.waitForCondVar ∧
      ((taskBlock p caller BlockedReason.waitForCondVar w).tasks caller).remainingSleepTicks
        = w) ∧
    (∀ (env : TaskId → TaskInfo) (core : Nat) (caller : TaskId) (w : Nat)
      (s : CVState) (rc : Int) (out : CVState),
      CondVarWaitRun env core caller w s rc out →
      rc = RET_SUCCESS ∨ rc = RET_TIMEOUT) := by
  refine ⟨?_, ?_, ?_, ?_⟩
  · intro env core m caller h
    simp [mutexUnlock, h]
  · intro caller w s rc out hloop
    exact condVarLoop_enqueues hloop
  · intro p caller w
    simp [taskBlock, Function.update_same]
  · intro env core caller w s rc out hrun
    cases hrun with
    | run sLoop rcLock mFinal hloop hlock => exact condVarLoop_rc hloop

/-- C9 witness: the claim theorem applied with caller `0` and the mutex
`c9M` owned by task `1`: the unchecked unlock returns `RET_NOTOWNER` with
the mutex unchanged, and a complete run from that non-owned mutex still
returns `RET_SUCCESS`. -/
theorem C9_witness :
    mutexUnlock c9Env 0 c9M 0 = (c9M, none, RET_NOTOWNER) ∧
    (RET_SUCCESS = RET_SUCCESS ∨ RET_SUCCESS = RET_TIMEOUT) := by
  refine ⟨C9_condvar_unlock_unchecked.1 c9Env 0 c9M 0 (by decide), ?_⟩
  refine C9_condvar_unlock_unchecked.2.2.2 c9Env 0 0 5 ⟨c9M, []⟩ RET_SUCCESS
    ⟨c9M, [0]⟩ ?_
  refine CondVarWaitRun.run _ RET_SUCCESS ⟨c9M, [0]⟩ RET_TIMEOUT c9M ?_ ?_
  · exact CondVarLoop.signalled (fun _ => 0) _ c9M [0]
      Relation.ReflTransGen.refl (CvQEvolve.refl _)
  · exact MutexLockRun.wakeTimeout (fun _ => 0) _ _ rfl (by decide)
      (timeoutFires_of_pos BlockedReason.waitForMutex TASK_MAX_WAIT (by decide)
        (by decide))
      Relation.ReflTransGen.refl
